import Mathlib

/-!
# cloudy stream (cloudy/stream.h)

A shallow embedding of the reference-counted stream buffer of `cloudy/stream.h`
and the properties of its operations.

* `size_t` values are natural numbers reduced modulo `2 ^ sizeBits`.
* The embedded counter (`unsigned int`) is a natural number reduced modulo
  `2 ^ counterBits`.
* Pointers are natural numbers, `0` is `NULL`; pointer arithmetic is reduced modulo
  `2 ^ pointerBits`.
* The C heap is explicit: a partial map from block base addresses to blocks,
  together with a log of the calls to `free`.
* A dereference of `NULL` or of a block that is not live is undefined; the
  operations that dereference return `none` in that case.
-/

namespace Cloudy

/-! ## Platform -/

/-- Build-time choice between the two counter back ends of stream.h. -/
inductive Backend where
  /-- The `#ifndef _WIN32` branch: `__sync_add_and_fetch`, `__sync_sub_and_fetch`. -/
  | sync
  /-- The `_WIN32` branch: `InterlockedIncrement`, `InterlockedDecrement`. -/
  | interlocked
  deriving DecidableEq, Repr

/-- Implementation-defined quantities the header depends on. -/
structure Target where
  /-- Width of `size_t` in bits. -/
  sizeBits : Nat
  /-- Width of a `char*` in bits. -/
  pointerBits : Nat
  /-- Value of `sizeof(unsigned int)`. -/
  counterSize : Nat
  /-- Width of `unsigned int` in bits. -/
  counterBits : Nat
  /-- Which branch of `#ifndef _WIN32` is compiled. -/
  backend : Backend
  /-- The value of `sizeof` is a `size_t`. -/
  counterSize_lt : counterSize < 2 ^ sizeBits
  /-- An `unsigned int` can hold the value 1. -/
  counterBits_pos : 0 < counterBits

/-- Number of `size_t` values. -/
def Target.sizeMod (T : Target) : Nat := 2 ^ T.sizeBits

/-- Number of `unsigned int` values. -/
def Target.counterMod (T : Target) : Nat := 2 ^ T.counterBits

/-- Number of `char*` values. -/
def Target.pointerMod (T : Target) : Nat := 2 ^ T.pointerBits

/-- The usual 64-bit Unix target: 64-bit `size_t`, 4-byte `unsigned int`. -/
def lp64 : Target :=
  { sizeBits := 64, pointerBits := 64, counterSize := 4, counterBits := 32,
    backend := Backend.sync,
    counterSize_lt := by decide, counterBits_pos := by decide }

/-- The 64-bit Windows target: the `_WIN32` branch is compiled. -/
def win64 : Target :=
  { sizeBits := 64, pointerBits := 64, counterSize := 4, counterBits := 32,
    backend := Backend.interlocked,
    counterSize_lt := by decide, counterBits_pos := by decide }

/-- `#define CLOUDY_STREAM_COUNTER_SIZE sizeof(CLOUDY_STREAM_COUNTER_TYPE)` -/
def CLOUDY_STREAM_COUNTER_SIZE (T : Target) : Nat := T.counterSize

/-! ## Heap -/

/-- One block obtained from `malloc`. -/
structure Block where
  /-- The `unsigned int` stored in the first `CLOUDY_STREAM_COUNTER_SIZE` bytes. -/
  count : Nat
  /-- The size the block was requested with. -/
  size : Nat
  /-- The bytes after the counter. -/
  data : List Nat
  deriving DecidableEq, Repr

/-- The C heap. -/
structure Heap where
  /-- The live blocks, by base address. -/
  blocks : Nat → Option Block
  /-- The arguments of the calls to `free` that released a block, latest first. -/
  freed : List Nat

/-- The heap with no live block. -/
def Heap.empty : Heap := { blocks := fun _ => none, freed := [] }

/-- The block a pointer refers to; `none` when dereferencing it is undefined. -/
def Heap.deref (h : Heap) (p : Nat) : Option Block :=
  if p = 0 then none else h.blocks p

/-- Replace the block at `p`. -/
def Heap.write (h : Heap) (p : Nat) (b : Block) : Heap :=
  { blocks := fun q => if q = p then some b else h.blocks q, freed := h.freed }

/-- What the allocator decides for one request: the address it hands back
(`0` when the request is refused) and the indeterminate contents of the new block. -/
structure Allocator where
  addr : Nat
  count : Nat
  data : List Nat

/-- `malloc(size)`: the pointer returned and the heap afterwards. -/
def malloc (a : Allocator) (h : Heap) (size : Nat) : Nat × Heap :=
  if a.addr = 0 then (0, h)
  else (a.addr, h.write a.addr { count := a.count, size := size, data := a.data })

/-- Remove the block at `p` and log the release. -/
def Heap.erase (h : Heap) (p : Nat) : Heap :=
  { blocks := fun q => if q = p then none else h.blocks q, freed := p :: h.freed }

/-- `free(p)`: a no-op on `NULL`, undefined on a pointer that is not live. -/
def free (h : Heap) (p : Nat) : Option Heap :=
  if p = 0 then some h
  else match h.blocks p with
    | none => none
    | some _ => some (h.erase p)

/-! ## stream.h -/

/-- `typedef struct cloudy_stream { char* buffer; size_t used; size_t free; }` -/
structure cloudy_stream where
  buffer : Nat
  used : Nat
  free : Nat
  deriving DecidableEq, Repr

/-- `#define CLOUDY_STREAM_GET_COUNT(b) (*(volatile CLOUDY_STREAM_COUNTER_TYPE*)(b))` -/
def CLOUDY_STREAM_GET_COUNT (h : Heap) (b : Nat) : Option Nat :=
  match h.deref b with
  | none => none
  | some blk => some blk.count

/-- `#define CLOUDY_STREAM_INIT_COUNT(b) do { *(volatile ...*)(b) = 1; } while(0)` -/
def CLOUDY_STREAM_INIT_COUNT (T : Target) (h : Heap) (b : Nat) : Option Heap :=
  match h.deref b with
  | none => none
  | some blk => some (h.write b { blk with count := 1 % T.counterMod })

/-- `CLOUDY_STREAM_INCR_COUNT(b)`, both branches of `#ifndef _WIN32`. -/
def CLOUDY_STREAM_INCR_COUNT (T : Target) (h : Heap) (b : Nat) : Option Heap :=
  match T.backend with
  | Backend.sync =>
    -- __sync_add_and_fetch((CLOUDY_STREAM_COUNTER_TYPE*)(b), 1)
    match h.deref b with
    | none => none
    | some blk => some (h.write b { blk with count := (blk.count + 1) % T.counterMod })
  | Backend.interlocked =>
    -- InterlockedIncrement((long*)b)
    match h.deref b with
    | none => none
    | some blk => some (h.write b { blk with count := (blk.count + 1) % T.counterMod })

/-- `CLOUDY_STREAM_DECR_COUNT(b)`, both branches of `#ifndef _WIN32`. -/
def CLOUDY_STREAM_DECR_COUNT (T : Target) (h : Heap) (b : Nat) : Option Heap :=
  match T.backend with
  | Backend.sync =>
    -- if(__sync_sub_and_fetch((CLOUDY_STREAM_COUNTER_TYPE*)(b), 1) == 0) { free(b); }
    match h.deref b with
    | none => none
    | some blk =>
      let c := (blk.count + T.counterMod - 1) % T.counterMod
      let h1 := h.write b { blk with count := c }
      if c = 0 then free h1 b else some h1
  | Backend.interlocked =>
    -- InterlockedDecrement((long*)b)
    match h.deref b with
    | none => none
    | some blk =>
      some (h.write b { blk with count := (blk.count + T.counterMod - 1) % T.counterMod })

/-- `bool cloudy_stream_init(cloudy_stream* stream, size_t init_size)` -/
def cloudy_stream_init (T : Target) (a : Allocator) (h : Heap) (stream : cloudy_stream)
    (init_size : Nat) : Option (Bool × Heap × cloudy_stream) :=
  if init_size < CLOUDY_STREAM_COUNTER_SIZE T then
    some (false, h, stream)
  else
    let m := malloc a h init_size
    let stream1 := { stream with buffer := m.1 }
    if stream1.buffer = 0 then
      some (false, m.2, stream1)
    else
      match CLOUDY_STREAM_INIT_COUNT T m.2 stream1.buffer with
      | none => none
      | some h1 =>
        let stream2 := { stream1 with used := CLOUDY_STREAM_COUNTER_SIZE T }
        let stream3 := { stream2 with
          free := (init_size + T.sizeMod - CLOUDY_STREAM_COUNTER_SIZE T) % T.sizeMod }
        some (true, h1, stream3)

/-- `void cloudy_stream_destroy(cloudy_stream* stream)` -/
def cloudy_stream_destroy (T : Target) (h : Heap) (stream : cloudy_stream) :
    Option (Heap × cloudy_stream) :=
  match CLOUDY_STREAM_DECR_COUNT T h stream.buffer with
  | none => none
  | some h1 => some (h1, stream)

/-- `void* cloudy_stream_buffer(cloudy_stream* stream)`: the sum `char* + size_t` is a
pointer, computed at pointer width. -/
def cloudy_stream_buffer (T : Target) (stream : cloudy_stream) : Nat :=
  (stream.buffer + stream.used) % T.pointerMod

/-- `size_t cloudy_stream_buffer_capacity(const cloudy_stream* stream)` -/
def cloudy_stream_buffer_capacity (stream : cloudy_stream) : Nat :=
  stream.free

/-- The type of `cloudy_stream_expand_buffer(stream, size, init_size)`, which the
header declares and calls but does not define: the result, the heap and the stream
afterwards. -/
abbrev GrowthPolicy := Heap → cloudy_stream → Nat → Nat → Bool × Heap × cloudy_stream

/-- `bool cloudy_stream_reserve_buffer(cloudy_stream* stream, size_t size, size_t init_size)` -/
def cloudy_stream_reserve_buffer (T : Target) (cloudy_stream_expand_buffer : GrowthPolicy)
    (h : Heap) (stream : cloudy_stream) (size init_size : Nat) :
    Option (Bool × Heap × cloudy_stream) :=
  match CLOUDY_STREAM_GET_COUNT h stream.buffer with
  | none => none
  | some c =>
    let stream2 :=
      if c = 1 then
        -- rewind buffer
        let stream1 := { stream with
          free := (stream.free
            + (stream.used + T.sizeMod - CLOUDY_STREAM_COUNTER_SIZE T) % T.sizeMod) % T.sizeMod }
        { stream1 with used := CLOUDY_STREAM_COUNTER_SIZE T }
      else stream
    if stream2.free < size then
      some (cloudy_stream_expand_buffer h stream2 size init_size)
    else
      some (true, h, stream2)

/-- `cloudy_stream_reference* cloudy_stream_allocate(cloudy_stream* stream, size_t size)` -/
def cloudy_stream_allocate (T : Target) (h : Heap) (stream : cloudy_stream) (size : Nat) :
    Option (Nat × Heap × cloudy_stream) :=
  if stream.free < size then
    some (0, h, stream)
  else
    let stream1 := { stream with used := (stream.used + size) % T.sizeMod }
    let stream2 := { stream1 with free := (stream1.free + T.sizeMod - size) % T.sizeMod }
    match CLOUDY_STREAM_INCR_COUNT T h stream2.buffer with
    | none => none
    | some h1 => some (stream2.buffer, h1, stream2)

/-- `void cloudy_stream_reference_free(cloudy_stream_reference* reference)` -/
def cloudy_stream_reference_free (T : Target) (h : Heap) (reference : Nat) : Option Heap :=
  CLOUDY_STREAM_DECR_COUNT T h reference

/-- `cloudy_stream_reference* cloudy_stream_reference_copy(cloudy_stream_reference* reference)` -/
def cloudy_stream_reference_copy (T : Target) (h : Heap) (reference : Nat) :
    Option (Nat × Heap) :=
  match CLOUDY_STREAM_INCR_COUNT T h reference with
  | none => none
  | some h1 => some (reference, h1)

/-! ## The growth collaborator and the stream invariants -/

/-- Modelled from the spec: the success half of the contract of
`cloudy_stream_expand_buffer`, whose body is not part of stream.h. On success the stream
is left with at least the requested number of free bytes. -/
def ExpandEnsuresFree (g : GrowthPolicy) : Prop :=
  ∀ h s size init_size, (g h s size init_size).1 = true →
    size ≤ (g h s size init_size).2.2.free

/-- Modelled from the spec: the failure half of the contract of
`cloudy_stream_expand_buffer`, whose body is not part of stream.h. On failure the heap
and the stream it was called with are left untouched. -/
def ExpandFailsUntouched (g : GrowthPolicy) : Prop :=
  ∀ h s size init_size, (g h s size init_size).1 = false →
    (g h s size init_size).2 = (h, s)

/-- A growth policy that always fails and touches nothing. -/
def refuseGrowth : GrowthPolicy := fun h s _ _ => (false, h, s)

/-- A growth policy that moves the stream to a fresh block at `addr` holding exactly the
header and the requested bytes, and fails when that size is not a `size_t`. -/
def freshGrowth (T : Target) (addr : Nat) : GrowthPolicy := fun h s size _ =>
  if addr = 0 ∨ T.sizeMod ≤ size + CLOUDY_STREAM_COUNTER_SIZE T then (false, h, s)
  else
    (true,
      h.write addr { count := 1, size := size + CLOUDY_STREAM_COUNTER_SIZE T, data := [] },
      { buffer := addr, used := CLOUDY_STREAM_COUNTER_SIZE T, free := size })

/-- The stream invariants of the data model: the buffer is a live block whose counter
is an `unsigned int` that is at least 1, `used` is at least the header size, and
`used + free` is the capacity of the block, a `size_t`. -/
def StreamInv (T : Target) (h : Heap) (s : cloudy_stream) : Prop :=
  ∃ blk, h.deref s.buffer = some blk ∧ 1 ≤ blk.count ∧ blk.count < T.counterMod ∧
    CLOUDY_STREAM_COUNTER_SIZE T ≤ s.used ∧ s.used + s.free = blk.size ∧
    blk.size < T.sizeMod

/-- A heap with one 64-byte block at address 4096 whose counter is `n`. -/
def heapAt4096 (n : Nat) : Heap :=
  Heap.empty.write 4096 { count := n, size := 64, data := List.replicate 60 0 }

/-! ## Sequential use of one allocation -/

/-- One call made by the producer or by a holder of a handle. A handle is named by its
position in the list of handles currently held. -/
inductive Op where
  /-- `cloudy_stream_allocate(stream, size)`; the handle returned is kept. -/
  | allocate (size : Nat)
  /-- `cloudy_stream_reference_copy` on the handle at position `i`; the copy is kept. -/
  | reference_copy (i : Nat)
  /-- `cloudy_stream_reference_free` on the handle at position `i`, which is given up. -/
  | reference_free (i : Nat)
  /-- `cloudy_stream_destroy(stream)`. -/
  | destroy
  deriving DecidableEq, Repr

/-- Why a call cannot be made. -/
inductive Fault where
  /-- The C code has undefined behaviour (a dead or null pointer is dereferenced). -/
  | undefined
  /-- The caller breaks the discipline: no handle at that position, a destroyed stream
  is used again, or `allocate` returned `NULL`. -/
  | misuse
  deriving DecidableEq, Repr

/-- The heap, the stream of the producer, the handles held by consumers, and whether the
stream has been destroyed. -/
structure World where
  heap : Heap
  stream : cloudy_stream
  handles : List Nat
  destroyed : Bool

/-- Run one call with the functions of stream.h. -/
def World.step (T : Target) (w : World) : Op → Except Fault World
  | Op.allocate size =>
    if w.destroyed then Except.error Fault.misuse
    else match cloudy_stream_allocate T w.heap w.stream size with
      | none => Except.error Fault.undefined
      | some (r, h1, s1) =>
        if r = 0 then Except.error Fault.misuse
        else Except.ok
          { heap := h1, stream := s1, handles := r :: w.handles, destroyed := w.destroyed }
  | Op.reference_copy i =>
    match w.handles[i]? with
    | none => Except.error Fault.misuse
    | some r =>
      match cloudy_stream_reference_copy T w.heap r with
      | none => Except.error Fault.undefined
      | some (r1, h1) =>
        Except.ok
          { heap := h1, stream := w.stream, handles := r1 :: w.handles,
            destroyed := w.destroyed }
  | Op.reference_free i =>
    match w.handles[i]? with
    | none => Except.error Fault.misuse
    | some r =>
      match cloudy_stream_reference_free T w.heap r with
      | none => Except.error Fault.undefined
      | some h1 =>
        Except.ok
          { heap := h1, stream := w.stream, handles := w.handles.eraseIdx i,
            destroyed := w.destroyed }
  | Op.destroy =>
    if w.destroyed then Except.error Fault.misuse
    else match cloudy_stream_destroy T w.heap w.stream with
      | none => Except.error Fault.undefined
      | some (h1, s1) =>
        Except.ok { heap := h1, stream := s1, handles := w.handles, destroyed := true }

/-- Run a sequence of calls, stopping at the first fault. -/
def World.run (T : Target) : World → List Op → Except Fault World
  | w, [] => Except.ok w
  | w, op :: ops =>
    match w.step T op with
    | Except.error e => Except.error e
    | Except.ok w1 => World.run T w1 ops

/-- The bookkeeping of the data model, independent of the heap: whether the stream still
holds its own pin, how many handles are held, and how many bytes are free. -/
structure Ledger where
  cursor : Bool
  handles : Nat
  room : Nat
  deriving DecidableEq, Repr

/-- The number of live pins: one for the stream until it is destroyed, one per handle
issued or copied and not yet freed. -/
def Ledger.pins (l : Ledger) : Nat := (if l.cursor then 1 else 0) + l.handles

/-- One call in the bookkeeping; `none` when the call is not allowed: `allocate` on a
destroyed stream or beyond the free bytes, a handle that is not held, a second
`destroy`. -/
def Ledger.step (l : Ledger) : Op → Option Ledger
  | Op.allocate size =>
    if l.cursor = true ∧ size ≤ l.room then
      some { cursor := l.cursor, handles := l.handles + 1, room := l.room - size }
    else none
  | Op.reference_copy i =>
    if i < l.handles then some { cursor := l.cursor, handles := l.handles + 1, room := l.room }
    else none
  | Op.reference_free i =>
    if i < l.handles then some { cursor := l.cursor, handles := l.handles - 1, room := l.room }
    else none
  | Op.destroy =>
    if l.cursor = true then some { cursor := false, handles := l.handles, room := l.room }
    else none

/-- A sequence of calls in the bookkeeping. -/
def Ledger.run : Ledger → List Op → Option Ledger
  | l, [] => some l
  | l, op :: ops =>
    match l.step op with
    | none => none
    | some l1 => Ledger.run l1 ops

/-- The largest number of live pins reached along a sequence of calls. -/
def Ledger.peak : Ledger → List Op → Nat
  | l, [] => l.pins
  | l, op :: ops =>
    match l.step op with
    | none => l.pins
    | some l1 => max l.pins (Ledger.peak l1 ops)

/-- The bookkeeping right after `cloudy_stream_init(c)`. -/
def Ledger.init (T : Target) (c : Nat) : Ledger :=
  { cursor := true, handles := 0, room := c - CLOUDY_STREAM_COUNTER_SIZE T }

/-- The heap and the bookkeeping agree on the allocation at `p`: the stream points at
it, every handle held is `p`, the block is live with its counter equal to the number of
live pins while that number is positive, and it has been released, exactly once more
than the `n0` earlier releases of that address, when the number is 0. -/
structure Agree (T : Target) (p n0 : Nat) (w : World) (l : Ledger) : Prop where
  buffer : w.stream.buffer = p
  nonnull : p ≠ 0
  room : w.stream.free = l.room
  room_lt : l.room < T.sizeMod
  destroyed : w.destroyed = !l.cursor
  handles : w.handles = List.replicate l.handles p
  live : 0 < l.pins → ∃ blk, w.heap.blocks p = some blk ∧ blk.count = l.pins
  dead : l.pins = 0 → w.heap.blocks p = none
  freed : w.heap.freed.count p = n0 + (if l.pins = 0 then 1 else 0)

/-! ## Sequential use by the producer -/

/-- One call made by the producer on its stream. -/
inductive ProducerOp where
  /-- `cloudy_stream_reserve_buffer(stream, size, init_size)` -/
  | reserve (size init_size : Nat)
  /-- `cloudy_stream_allocate(stream, size)`, whether it returns a handle or `NULL`. -/
  | allocate (size : Nat)
  deriving DecidableEq, Repr

/-- Why a run of producer calls stops. -/
inductive Halt where
  /-- The C code has undefined behaviour (a dead or null pointer is dereferenced). -/
  | undefined
  /-- A `reserve` call reached `cloudy_stream_expand_buffer`. -/
  | growth
  deriving DecidableEq, Repr

/-- Run one producer call. The growth function is the one that always fails and touches
nothing, so `cloudy_stream_reserve_buffer` returns false exactly when it called it. -/
def Producer.step (T : Target) (w : Heap × cloudy_stream) :
    ProducerOp → Except Halt (Heap × cloudy_stream)
  | ProducerOp.reserve size init_size =>
    match cloudy_stream_reserve_buffer T refuseGrowth w.1 w.2 size init_size with
    | none => Except.error Halt.undefined
    | some (false, _, _) => Except.error Halt.growth
    | some (true, h1, s1) => Except.ok (h1, s1)
  | ProducerOp.allocate size =>
    match cloudy_stream_allocate T w.1 w.2 size with
    | none => Except.error Halt.undefined
    | some (_, h1, s1) => Except.ok (h1, s1)

/-- Run a sequence of producer calls, stopping at the first halt. -/
def Producer.run (T : Target) :
    Heap × cloudy_stream → List ProducerOp → Except Halt (Heap × cloudy_stream)
  | w, [] => Except.ok w
  | w, op :: ops =>
    match Producer.step T w op with
    | Except.error e => Except.error e
    | Except.ok w1 => Producer.run T w1 ops

/-- Commit the sizes one after the other with `cloudy_stream_allocate`, recording before
each call the write pointer `cloudy_stream_buffer(stream)` together with the size. A call
that returns `NULL` stops the run as a misuse. -/
def commitAll (T : Target) : Heap → cloudy_stream → List Nat →
    Except Fault (List (Nat × Nat) × Heap × cloudy_stream)
  | h, s, [] => Except.ok ([], h, s)
  | h, s, size :: rest =>
    match cloudy_stream_allocate T h s size with
    | none => Except.error Fault.undefined
    | some (r, h1, s1) =>
      if r = 0 then Except.error Fault.misuse
      else match commitAll T h1 s1 rest with
        | Except.error e => Except.error e
        | Except.ok (regions, hf, sf) =>
          Except.ok ((cloudy_stream_buffer T s, size) :: regions, hf, sf)

/-- The call `cloudy_stream_buffer(stream)` in state-passing form: the value returned, and
the heap and the stream afterwards. The body is a single `return`, with no store. -/
def cloudy_stream_buffer_call (T : Target) (h : Heap) (stream : cloudy_stream) :
    Nat × Heap × cloudy_stream :=
  (cloudy_stream_buffer T stream, h, stream)

/-- The call `cloudy_stream_buffer_capacity(stream)` in state-passing form. The parameter
is a pointer to `const`, and the body is a single `return`. -/
def cloudy_stream_buffer_capacity_call (h : Heap) (stream : cloudy_stream) :
    Nat × Heap × cloudy_stream :=
  (cloudy_stream_buffer_capacity stream, h, stream)

/-- What is observed of a world about the block at `p`: `used`, `free`, the counter of the
block while it is live, and how many times `p` has been released. -/
def World.observe (p : Nat) (w : World) : Nat × Nat × Option Nat × Nat :=
  (w.stream.used, w.stream.free, (w.heap.blocks p).map (fun b => b.count),
    w.heap.freed.count p)

/-- The heap after a successful `cloudy_stream_init`: the new block with its counter set. -/
def initHeap (T : Target) (a : Allocator) (h : Heap) (init_size : Nat) : Heap :=
  (h.write a.addr { count := a.count, size := init_size, data := a.data }).write a.addr
    { count := 1 % T.counterMod, size := init_size, data := a.data }

/-- The world right after `cloudy_stream_init(64)` on an empty heap when `malloc` returns
address 4096. -/
def scenarioWorld (T : Target) : World :=
  { heap := initHeap T ⟨4096, 0, []⟩ Heap.empty 64,
    stream := { buffer := 4096, used := CLOUDY_STREAM_COUNTER_SIZE T,
                free := 64 - CLOUDY_STREAM_COUNTER_SIZE T },
    handles := [], destroyed := false }

/-- The calls of the scenario after `init(64)`: `allocate(10)`, a copy of the handle, two
releases, and `destroy`. -/
def scenarioOps : List Op :=
  [Op.allocate 10, Op.reference_copy 0, Op.reference_free 0, Op.reference_free 0, Op.destroy]

/-- What every producer call keeps true of the heap and the stream: the stream points at
a live block `p` of `c` bytes, `used` is at least the header size, `used + free` is `c`,
and `c` is a `size_t`. -/
structure ProducerInv (T : Target) (c p : Nat) (w : Heap × cloudy_stream) : Prop where
  buffer : w.2.buffer = p
  nonnull : p ≠ 0
  live : ∃ blk, w.1.blocks p = some blk ∧ blk.size = c
  header : CLOUDY_STREAM_COUNTER_SIZE T ≤ w.2.used
  capacity : w.2.used + w.2.free = c
  fits : c < T.sizeMod

/-- The regions described by the contiguity property: starting at `start`, one region
per size, each beginning where the one before ends. -/
def regionsFrom (start : Nat) : List Nat → List (Nat × Nat)
  | [] => []
  | size :: rest => (start, size) :: regionsFrom (start + size) rest

/-- Every live block lies inside the address space: its base plus its size, the pointer
one past its end, is a `char*` value. -/
def Heap.inAddressSpace (T : Target) (h : Heap) : Prop :=
  ∀ p blk, h.blocks p = some blk → p + blk.size < T.pointerMod

/-! ## Basic facts -/

theorem Target.one_lt_counterMod (T : Target) : 1 < T.counterMod := by
  unfold Target.counterMod
  exact Nat.one_lt_two_pow (Nat.pos_iff_ne_zero.mp T.counterBits_pos)

theorem Target.sizeMod_pos (T : Target) : 0 < T.sizeMod := by
  unfold Target.sizeMod
  exact Nat.two_pow_pos _

theorem Heap.deref_write_same (h : Heap) (p : Nat) (b : Block) (hp : p ≠ 0) :
    (h.write p b).deref p = some b := by
  simp [Heap.deref, Heap.write, hp]

/-! ## Initialisation -/

theorem sub_counter_size_mod (T : Target) (c : Nat) (hc : c < 2 ^ T.sizeBits)
    (hle : CLOUDY_STREAM_COUNTER_SIZE T ≤ c) :
    (c + T.sizeMod - CLOUDY_STREAM_COUNTER_SIZE T) % T.sizeMod
      = c - CLOUDY_STREAM_COUNTER_SIZE T := by
  have h1 : c + T.sizeMod - CLOUDY_STREAM_COUNTER_SIZE T
      = (c - CLOUDY_STREAM_COUNTER_SIZE T) + T.sizeMod := by omega
  rw [h1, Nat.add_mod_right]
  apply Nat.mod_eq_of_lt
  unfold Target.sizeMod
  omega

theorem cloudy_stream_init_ok (T : Target) (a : Allocator) (h : Heap)
    (stream : cloudy_stream) (c : Nat) (hc : c < 2 ^ T.sizeBits)
    (hle : CLOUDY_STREAM_COUNTER_SIZE T ≤ c) (ha : a.addr ≠ 0) :
    cloudy_stream_init T a h stream c
      = some (true, initHeap T a h c,
          { buffer := a.addr, used := CLOUDY_STREAM_COUNTER_SIZE T,
            free := c - CLOUDY_STREAM_COUNTER_SIZE T }) := by
  have hnlt : ¬ c < CLOUDY_STREAM_COUNTER_SIZE T := Nat.not_lt.mpr hle
  simp only [cloudy_stream_init, hnlt, if_false, malloc, ha, CLOUDY_STREAM_INIT_COUNT,
    Heap.deref_write_same _ _ _ ha, sub_counter_size_mod T c hc hle, initHeap]

/-- C1: for a requested capacity `c` (a `size_t`), `cloudy_stream_init` returns false
when `c` is below the counter header size; when `c` is at least the header size and
`malloc` succeeds it returns true with the embedded counter equal to 1, `used` equal to
the header size and `free` equal to `c` minus the header size, the subtraction not
wrapping (`free + header = c`). -/
theorem cloudy_stream_init_spec (T : Target) (a : Allocator) (h : Heap)
    (stream : cloudy_stream) (c : Nat) (hc : c < 2 ^ T.sizeBits) :
    (c < CLOUDY_STREAM_COUNTER_SIZE T →
      ∃ h1 s1, cloudy_stream_init T a h stream c = some (false, h1, s1)) ∧
    (CLOUDY_STREAM_COUNTER_SIZE T ≤ c → a.addr ≠ 0 →
      ∃ h1 s1, cloudy_stream_init T a h stream c = some (true, h1, s1) ∧
        CLOUDY_STREAM_GET_COUNT h1 s1.buffer = some 1 ∧
        s1.used = CLOUDY_STREAM_COUNTER_SIZE T ∧
        s1.free = c - CLOUDY_STREAM_COUNTER_SIZE T ∧
        s1.free + CLOUDY_STREAM_COUNTER_SIZE T = c) := by
  constructor
  · intro hlt
    exact ⟨h, stream, by simp [cloudy_stream_init, hlt]⟩
  · intro hle ha
    have hone : 1 % T.counterMod = 1 := Nat.mod_eq_of_lt T.one_lt_counterMod
    refine ⟨_, _, cloudy_stream_init_ok T a h stream c hc hle ha, ?_, rfl, rfl, ?_⟩
    · simp [CLOUDY_STREAM_GET_COUNT, initHeap, Heap.deref_write_same _ _ _ ha, hone]
    · show c - CLOUDY_STREAM_COUNTER_SIZE T + CLOUDY_STREAM_COUNTER_SIZE T = c
      omega

/-- Witness of C1 on the 64-bit target: `init(64)` and the size bound `64 < 2 ^ 64`. -/
theorem cloudy_stream_init_spec_witness :
    (64 < 2 ^ lp64.sizeBits) ∧
    ((64 < CLOUDY_STREAM_COUNTER_SIZE lp64 →
      ∃ h1 s1, cloudy_stream_init lp64 ⟨4096, 0, []⟩ Heap.empty ⟨0, 0, 0⟩ 64
        = some (false, h1, s1)) ∧
    (CLOUDY_STREAM_COUNTER_SIZE lp64 ≤ 64 → (⟨4096, 0, []⟩ : Allocator).addr ≠ 0 →
      ∃ h1 s1, cloudy_stream_init lp64 ⟨4096, 0, []⟩ Heap.empty ⟨0, 0, 0⟩ 64
          = some (true, h1, s1) ∧
        CLOUDY_STREAM_GET_COUNT h1 s1.buffer = some 1 ∧
        s1.used = CLOUDY_STREAM_COUNTER_SIZE lp64 ∧
        s1.free = 64 - CLOUDY_STREAM_COUNTER_SIZE lp64 ∧
        s1.free + CLOUDY_STREAM_COUNTER_SIZE lp64 = 64)) :=
  ⟨by decide, cloudy_stream_init_spec lp64 ⟨4096, 0, []⟩ Heap.empty ⟨0, 0, 0⟩ 64 (by decide)⟩

/-! ## Commit: cloudy_stream_allocate -/

theorem sub_mod_of_le (m a b : Nat) (hb : b ≤ a) (ha : a < m) : (a + m - b) % m = a - b := by
  have h1 : a + m - b = (a - b) + m := by omega
  rw [h1, Nat.add_mod_right]
  exact Nat.mod_eq_of_lt (by omega)

theorem deref_ne_null {h : Heap} {p : Nat} {blk : Block} (hb : h.deref p = some blk) :
    p ≠ 0 := by
  intro h0
  simp [Heap.deref, h0] at hb

theorem CLOUDY_STREAM_INCR_COUNT_eq (T : Target) (h : Heap) (b : Nat) (blk : Block)
    (hb : h.deref b = some blk) :
    CLOUDY_STREAM_INCR_COUNT T h b
      = some (h.write b { blk with count := (blk.count + 1) % T.counterMod }) := by
  unfold CLOUDY_STREAM_INCR_COUNT
  cases T.backend <;> simp [hb]

theorem cloudy_stream_allocate_eq (T : Target) (h : Heap) (s : cloudy_stream) (size : Nat)
    (blk : Block) (hb : h.deref s.buffer = some blk) (hsize : size ≤ s.free) :
    cloudy_stream_allocate T h s size
      = some (s.buffer, h.write s.buffer { blk with count := (blk.count + 1) % T.counterMod },
          { buffer := s.buffer, used := (s.used + size) % T.sizeMod,
            free := (s.free + T.sizeMod - size) % T.sizeMod }) := by
  have hnlt : ¬ s.free < size := Nat.not_lt.mpr hsize
  simp only [cloudy_stream_allocate, hnlt, if_false, CLOUDY_STREAM_INCR_COUNT_eq T h _ blk hb]

theorem deref_heapAt4096 (n : Nat) :
    (heapAt4096 n).deref 4096 = some { count := n, size := 64, data := List.replicate 60 0 } := by
  simp [heapAt4096, Heap.deref, Heap.write]

/-- C2 as stated fails: with the counter at `UINT_MAX` (a state that satisfies every
stream invariant) a successful `allocate(10)` leaves the counter at 0 instead of
`UINT_MAX + 1`; and with `used = SIZE_MAX`, `free = 1` a successful `allocate(1)` leaves
`used` at 0 instead of `SIZE_MAX + 1`. -/
theorem cloudy_stream_allocate_wraps :
    (CLOUDY_STREAM_GET_COUNT (heapAt4096 4294967295) 4096 = some 4294967295 ∧
      (10 : Nat) ≤ (⟨4096, 4, 60⟩ : cloudy_stream).free ∧
      (cloudy_stream_allocate lp64 (heapAt4096 4294967295) ⟨4096, 4, 60⟩ 10).bind
          (fun r => CLOUDY_STREAM_GET_COUNT r.2.1 r.1) = some 0) ∧
    ((1 : Nat) ≤ (⟨4096, 18446744073709551615, 1⟩ : cloudy_stream).free ∧
      (cloudy_stream_allocate lp64 (heapAt4096 1) ⟨4096, 18446744073709551615, 1⟩ 1).map
          (fun r => r.2.2.used) = some 0) := by
  refine ⟨⟨?_, by decide, ?_⟩, by decide, ?_⟩
  · simp [CLOUDY_STREAM_GET_COUNT, deref_heapAt4096]
  · rw [cloudy_stream_allocate_eq lp64 _ _ 10 _ (deref_heapAt4096 _) (by decide)]
    simp [CLOUDY_STREAM_GET_COUNT, Heap.deref, Heap.write, lp64, Target.counterMod]
  · rw [cloudy_stream_allocate_eq lp64 _ _ 1 _ (deref_heapAt4096 _) (by decide)]
    simp [lp64, Target.sizeMod]

/-- C2, amended: for a stream whose buffer is a live block, a size with `size <= free`,
a counter below `UINT_MAX` and `used + size` representable in `size_t`,
`cloudy_stream_allocate(size)` returns a non-null handle equal to the base address of the
backing block (whatever `size` and `used` are), adds exactly `size` to `used`, takes
exactly `size` from `free`, adds exactly 1 to the counter of that block, and changes
nothing else in the heap. -/
theorem cloudy_stream_allocate_ok (T : Target) (h : Heap) (s : cloudy_stream) (size : Nat)
    (blk : Block) (hb : h.deref s.buffer = some blk) (hsize : size ≤ s.free)
    (hfree : s.free < T.sizeMod) (hused : s.used + size < T.sizeMod)
    (hcount : blk.count + 1 < T.counterMod) :
    cloudy_stream_allocate T h s size
      = some (s.buffer, h.write s.buffer { blk with count := blk.count + 1 },
          { buffer := s.buffer, used := s.used + size, free := s.free - size }) ∧
    s.buffer ≠ 0 := by
  refine ⟨?_, deref_ne_null hb⟩
  rw [cloudy_stream_allocate_eq T h s size blk hb hsize, Nat.mod_eq_of_lt hused,
    Nat.mod_eq_of_lt hcount, sub_mod_of_le _ _ _ hsize hfree]

/-- Witness of the amended C2: `allocate(10)` on a 64-byte block with `used = 4`,
`free = 60` and counter 1. -/
theorem cloudy_stream_allocate_ok_witness :
    cloudy_stream_allocate lp64 (heapAt4096 1) ⟨4096, 4, 60⟩ 10
      = some (4096,
          (heapAt4096 1).write 4096 { count := 2, size := 64, data := List.replicate 60 0 },
          { buffer := 4096, used := 14, free := 50 }) ∧
    (4096 : Nat) ≠ 0 :=
  cloudy_stream_allocate_ok lp64 (heapAt4096 1) ⟨4096, 4, 60⟩ 10
    { count := 1, size := 64, data := List.replicate 60 0 }
    (deref_heapAt4096 1) (by decide)
    (by simp [lp64, Target.sizeMod]) (by simp [lp64, Target.sizeMod])
    (by simp [lp64, Target.counterMod])

/-- C3: for every heap, every stream and every size with `size > free`,
`cloudy_stream_allocate(size)` returns `NULL` and leaves the heap (hence the counter)
and the stream (`buffer`, `used`, `free`) exactly as they were. -/
theorem cloudy_stream_allocate_too_large (T : Target) (h : Heap) (s : cloudy_stream)
    (size : Nat) (hsize : s.free < size) :
    cloudy_stream_allocate T h s size = some (0, h, s) := by
  simp [cloudy_stream_allocate, hsize]

/-- Witness of C3: `allocate(61)` with 60 free bytes. -/
theorem cloudy_stream_allocate_too_large_witness :
    cloudy_stream_allocate lp64 (heapAt4096 1) ⟨4096, 4, 60⟩ 61
      = some (0, heapAt4096 1, ⟨4096, 4, 60⟩) :=
  cloudy_stream_allocate_too_large lp64 (heapAt4096 1) ⟨4096, 4, 60⟩ 61 (by decide)

/-! ## Reservation: cloudy_stream_reserve_buffer -/

/-- The stream after the rewind branch of `cloudy_stream_reserve_buffer`. -/
theorem cloudy_stream_reserve_buffer_eq (T : Target) (g : GrowthPolicy) (h : Heap)
    (s : cloudy_stream) (size init_size : Nat) (blk : Block)
    (hb : h.deref s.buffer = some blk) :
    cloudy_stream_reserve_buffer T g h s size init_size
      = some (if blk.count = 1 then
          (if (s.free + (s.used + T.sizeMod - CLOUDY_STREAM_COUNTER_SIZE T) % T.sizeMod)
                % T.sizeMod < size then
            g h { buffer := s.buffer, used := CLOUDY_STREAM_COUNTER_SIZE T,
                  free := (s.free + (s.used + T.sizeMod - CLOUDY_STREAM_COUNTER_SIZE T)
                    % T.sizeMod) % T.sizeMod } size init_size
          else
            (true, h,
              { buffer := s.buffer, used := CLOUDY_STREAM_COUNTER_SIZE T,
                free := (s.free + (s.used + T.sizeMod - CLOUDY_STREAM_COUNTER_SIZE T)
                    % T.sizeMod) % T.sizeMod }))
        else (if s.free < size then g h s size init_size else (true, h, s))) := by
  simp only [cloudy_stream_reserve_buffer, CLOUDY_STREAM_GET_COUNT, hb]
  by_cases hc : blk.count = 1
  · simp only [hc, if_true]
    split <;> rfl
  · simp only [hc, if_false]
    split <;> rfl

theorem rewind_free_eq (T : Target) (s : cloudy_stream)
    (hused : CLOUDY_STREAM_COUNTER_SIZE T ≤ s.used) (hcap : s.used + s.free < T.sizeMod) :
    (s.free + (s.used + T.sizeMod - CLOUDY_STREAM_COUNTER_SIZE T) % T.sizeMod) % T.sizeMod
      = s.used + s.free - CLOUDY_STREAM_COUNTER_SIZE T := by
  rw [sub_mod_of_le _ _ _ hused (by omega)]
  rw [Nat.mod_eq_of_lt (by omega)]
  omega

/-- A sole-owned stream that satisfies the invariants: the rewind is exact. -/
theorem cloudy_stream_reserve_buffer_sole (T : Target) (g : GrowthPolicy) (h : Heap)
    (s : cloudy_stream) (size init_size : Nat) (hinv : StreamInv T h s)
    (hsole : CLOUDY_STREAM_GET_COUNT h s.buffer = some 1) :
    cloudy_stream_reserve_buffer T g h s size init_size
      = some (if s.used + s.free - CLOUDY_STREAM_COUNTER_SIZE T < size then
            g h { buffer := s.buffer, used := CLOUDY_STREAM_COUNTER_SIZE T,
                  free := s.used + s.free - CLOUDY_STREAM_COUNTER_SIZE T } size init_size
          else
            (true, h,
              { buffer := s.buffer, used := CLOUDY_STREAM_COUNTER_SIZE T,
                free := s.used + s.free - CLOUDY_STREAM_COUNTER_SIZE T })) := by
  obtain ⟨blk, hb, _, _, hused, hcap, hlt⟩ := hinv
  have hc : blk.count = 1 := by
    simpa [CLOUDY_STREAM_GET_COUNT, hb] using hsole
  rw [cloudy_stream_reserve_buffer_eq T g h s size init_size blk hb,
    rewind_free_eq T s hused (by omega)]
  simp [hc]

theorem streamInv_heapAt4096 (n used free : Nat) (hn : 1 ≤ n) (hn2 : n < lp64.counterMod)
    (hused : 4 ≤ used) (hcap : used + free = 64) :
    StreamInv lp64 (heapAt4096 n) ⟨4096, used, free⟩ :=
  ⟨_, deref_heapAt4096 n, hn, hn2, hused, hcap, by simp [lp64, Target.sizeMod]⟩

/-- C4: for every stream that satisfies the stream invariants and every size,
`cloudy_stream_reserve_buffer` is defined, and if it returns true then `free >= size`
afterwards, provided `cloudy_stream_expand_buffer` leaves at least the requested free
bytes whenever it succeeds. -/
theorem cloudy_stream_reserve_buffer_ensures (T : Target) (g : GrowthPolicy) (h : Heap)
    (s : cloudy_stream) (size init_size : Nat) (hg : ExpandEnsuresFree g)
    (hinv : StreamInv T h s) :
    ∃ r, cloudy_stream_reserve_buffer T g h s size init_size = some r ∧
      (r.1 = true → size ≤ r.2.2.free) := by
  obtain ⟨blk, hb, _⟩ := hinv
  refine ⟨_, cloudy_stream_reserve_buffer_eq T g h s size init_size blk hb, ?_⟩
  by_cases hc : blk.count = 1
  · simp only [hc, if_true]
    split
    · exact hg _ _ _ _
    · rename_i hge
      intro _
      exact Nat.not_lt.mp hge
  · simp only [hc, if_false]
    split
    · exact hg _ _ _ _
    · rename_i hge
      intro _
      exact Nat.not_lt.mp hge

theorem freshGrowth_ensuresFree (T : Target) (addr : Nat) :
    ExpandEnsuresFree (freshGrowth T addr) := by
  intro h s size init_size
  unfold freshGrowth
  split <;> simp

/-- Witness of C4: a shared 64-byte block with 50 free bytes, a request for 100 bytes,
and a growth policy that moves the stream to a fresh block. -/
theorem cloudy_stream_reserve_buffer_ensures_witness :
    ExpandEnsuresFree (freshGrowth lp64 8192) ∧
    StreamInv lp64 (heapAt4096 2) ⟨4096, 14, 50⟩ ∧
    ∃ r, cloudy_stream_reserve_buffer lp64 (freshGrowth lp64 8192) (heapAt4096 2)
        ⟨4096, 14, 50⟩ 100 4096 = some r ∧ (r.1 = true → 100 ≤ r.2.2.free) :=
  ⟨freshGrowth_ensuresFree lp64 8192,
    streamInv_heapAt4096 2 14 50 (by decide) (by simp [lp64, Target.counterMod]) (by decide) rfl,
    cloudy_stream_reserve_buffer_ensures lp64 (freshGrowth lp64 8192) (heapAt4096 2)
      ⟨4096, 14, 50⟩ 100 4096 (freshGrowth_ensuresFree lp64 8192)
      (streamInv_heapAt4096 2 14 50 (by decide) (by simp [lp64, Target.counterMod])
        (by decide) rfl)⟩

theorem refuseGrowth_failsUntouched : ExpandFailsUntouched refuseGrowth := by
  intro h s size init_size _
  rfl

/-- C5 as stated fails: a sole-owned stream (counter 1) with `used = 14`, `free = 50` is
asked for 100 bytes and the growth function fails leaving the stream untouched. The call
returns false, but the rewind has already run: `used` is 4 and `free` is 60. -/
theorem cloudy_stream_reserve_buffer_failure_rewinds :
    ExpandFailsUntouched refuseGrowth ∧
    StreamInv lp64 (heapAt4096 1) ⟨4096, 14, 50⟩ ∧
    cloudy_stream_reserve_buffer lp64 refuseGrowth (heapAt4096 1) ⟨4096, 14, 50⟩ 100 4096
      = some (false, heapAt4096 1, ⟨4096, 4, 60⟩) := by
  refine ⟨refuseGrowth_failsUntouched,
    streamInv_heapAt4096 1 14 50 (by decide) (by simp [lp64, Target.counterMod]) (by decide) rfl,
    ?_⟩
  rw [cloudy_stream_reserve_buffer_eq lp64 _ _ _ _ _ _ (deref_heapAt4096 1)]
  simp [refuseGrowth, lp64, Target.sizeMod, CLOUDY_STREAM_COUNTER_SIZE]

/-- C5, amended: for every stream whose buffer is a live block and every size, with a
growth function that leaves heap and stream untouched when it fails,
`cloudy_stream_reserve_buffer` is defined, and if it returns false then the heap (hence
the counter) and the buffer pointer are as before the call; `used` and `free` are as
before when the counter is not 1; and when the counter is 1 the rewind has been applied:
`used` is the header size and `free` is the old `free` plus the old `used` minus the
header size in `size_t` arithmetic, which is `used + free - header` with `used + free`
preserved when `used >= header` and `used + free` is a `size_t`. -/
theorem cloudy_stream_reserve_buffer_failure (T : Target) (g : GrowthPolicy) (h : Heap)
    (s : cloudy_stream) (size init_size : Nat) (blk : Block)
    (hg : ExpandFailsUntouched g) (hb : h.deref s.buffer = some blk) :
    ∃ r, cloudy_stream_reserve_buffer T g h s size init_size = some r ∧
      (r.1 = false →
        r.2.1 = h ∧ r.2.2.buffer = s.buffer ∧
        (blk.count ≠ 1 → r.2.2 = s) ∧
        (blk.count = 1 →
          r.2.2.used = CLOUDY_STREAM_COUNTER_SIZE T ∧
          r.2.2.free = (s.free + (s.used + T.sizeMod - CLOUDY_STREAM_COUNTER_SIZE T)
            % T.sizeMod) % T.sizeMod ∧
          (CLOUDY_STREAM_COUNTER_SIZE T ≤ s.used → s.used + s.free < T.sizeMod →
            r.2.2.free = s.used + s.free - CLOUDY_STREAM_COUNTER_SIZE T ∧
            r.2.2.used + r.2.2.free = s.used + s.free))) := by
  refine ⟨_, cloudy_stream_reserve_buffer_eq T g h s size init_size blk hb, ?_⟩
  by_cases hc : blk.count = 1
  · simp only [hc, if_true]
    split
    · intro hr
      have hu := hg _ _ _ _ hr
      have h1 := congrArg Prod.fst hu
      have h2 := congrArg Prod.snd hu
      simp only at h1 h2
      refine ⟨h1, by rw [h2], fun hne => absurd rfl hne, fun _ => ?_⟩
      rw [h2]
      refine ⟨rfl, rfl, ?_⟩
      intro hused hcap
      have hrw := rewind_free_eq T s hused hcap
      have hsum : CLOUDY_STREAM_COUNTER_SIZE T
          + (s.used + s.free - CLOUDY_STREAM_COUNTER_SIZE T) = s.used + s.free := by omega
      rw [← hrw] at hsum
      exact ⟨hrw, hsum⟩
    · intro hr
      simp at hr
  · simp only [hc, if_false]
    split
    · intro hr
      have hu := hg _ _ _ _ hr
      have h1 := congrArg Prod.fst hu
      have h2 := congrArg Prod.snd hu
      simp only at h1 h2
      exact ⟨h1, by rw [h2], fun _ => h2, fun hone => hone.elim⟩
    · intro hr
      simp at hr

/-- Witness of the amended C5: the sole-owned stream of the counterexample. -/
theorem cloudy_stream_reserve_buffer_failure_witness :
    ExpandFailsUntouched refuseGrowth ∧
    ∃ r, cloudy_stream_reserve_buffer lp64 refuseGrowth (heapAt4096 1) ⟨4096, 14, 50⟩ 100 4096
        = some r ∧
      (r.1 = false →
        r.2.1 = heapAt4096 1 ∧ r.2.2.buffer = 4096 ∧
        ((1 : Nat) ≠ 1 → r.2.2 = ⟨4096, 14, 50⟩) ∧
        ((1 : Nat) = 1 →
          r.2.2.used = CLOUDY_STREAM_COUNTER_SIZE lp64 ∧
          r.2.2.free = (50 + (14 + lp64.sizeMod - CLOUDY_STREAM_COUNTER_SIZE lp64)
            % lp64.sizeMod) % lp64.sizeMod ∧
          (CLOUDY_STREAM_COUNTER_SIZE lp64 ≤ 14 → 14 + 50 < lp64.sizeMod →
            r.2.2.free = 14 + 50 - CLOUDY_STREAM_COUNTER_SIZE lp64 ∧
            r.2.2.used + r.2.2.free = 14 + 50))) :=
  ⟨refuseGrowth_failsUntouched,
    cloudy_stream_reserve_buffer_failure lp64 refuseGrowth (heapAt4096 1) ⟨4096, 14, 50⟩
      100 4096 { count := 1, size := 64, data := List.replicate 60 0 }
      refuseGrowth_failsUntouched (deref_heapAt4096 1)⟩

/-- C6: on a shared block (counter greater than 1) `cloudy_stream_reserve_buffer` never
rewinds: when `free < size` it is exactly the call of the growth function on the heap and
the stream as they were (`used` not reset), and when `free >= size` it returns true and
leaves the heap (hence the counter) and the stream (`buffer`, `used`, `free`) unchanged. -/
theorem cloudy_stream_reserve_buffer_shared (T : Target) (g : GrowthPolicy) (h : Heap)
    (s : cloudy_stream) (size init_size : Nat) (blk : Block)
    (hb : h.deref s.buffer = some blk) (hshared : 1 < blk.count) :
    (s.free < size →
      cloudy_stream_reserve_buffer T g h s size init_size = some (g h s size init_size)) ∧
    (size ≤ s.free →
      cloudy_stream_reserve_buffer T g h s size init_size = some (true, h, s)) := by
  have hc : blk.count ≠ 1 := by omega
  rw [cloudy_stream_reserve_buffer_eq T g h s size init_size blk hb]
  simp only [hc, if_false]
  constructor
  · intro hlt
    simp [hlt]
  · intro hle
    simp [Nat.not_lt.mpr hle]

/-- Witness of C6: a block with counter 2, `used = 14`, `free = 50`. -/
theorem cloudy_stream_reserve_buffer_shared_witness :
    (50 < 10 →
      cloudy_stream_reserve_buffer lp64 refuseGrowth (heapAt4096 2) ⟨4096, 14, 50⟩ 10 4096
        = some (refuseGrowth (heapAt4096 2) ⟨4096, 14, 50⟩ 10 4096)) ∧
    (10 ≤ 50 →
      cloudy_stream_reserve_buffer lp64 refuseGrowth (heapAt4096 2) ⟨4096, 14, 50⟩ 10 4096
        = some (true, heapAt4096 2, ⟨4096, 14, 50⟩)) :=
  cloudy_stream_reserve_buffer_shared lp64 refuseGrowth (heapAt4096 2) ⟨4096, 14, 50⟩ 10 4096
    { count := 2, size := 64, data := List.replicate 60 0 } (deref_heapAt4096 2) (by decide)

/-- C7: for a stream that satisfies the stream invariants, whose counter is 1, and a size
with `free >= size`, `cloudy_stream_reserve_buffer` returns true with the heap unchanged
and the same buffer pointer whatever the growth function is (it is not consulted). -/
theorem cloudy_stream_reserve_buffer_sole_enough (T : Target) (h : Heap) (s : cloudy_stream)
    (size init_size : Nat) (hinv : StreamInv T h s)
    (hsole : CLOUDY_STREAM_GET_COUNT h s.buffer = some 1) (hsize : size ≤ s.free) :
    ∃ s1, s1.buffer = s.buffer ∧
      ∀ g : GrowthPolicy,
        cloudy_stream_reserve_buffer T g h s size init_size = some (true, h, s1) := by
  refine ⟨{ buffer := s.buffer, used := CLOUDY_STREAM_COUNTER_SIZE T,
            free := s.used + s.free - CLOUDY_STREAM_COUNTER_SIZE T }, rfl, ?_⟩
  intro g
  rw [cloudy_stream_reserve_buffer_sole T g h s size init_size hinv hsole]
  obtain ⟨blk, _, _, _, hused, _, _⟩ := hinv
  have hnlt : ¬ s.used + s.free - CLOUDY_STREAM_COUNTER_SIZE T < size := by omega
  simp [hnlt]

/-- Witness of C7: counter 1, `used = 14`, `free = 50`, a request for 10 bytes. -/
theorem cloudy_stream_reserve_buffer_sole_enough_witness :
    StreamInv lp64 (heapAt4096 1) ⟨4096, 14, 50⟩ ∧
    CLOUDY_STREAM_GET_COUNT (heapAt4096 1) 4096 = some 1 ∧
    ∃ s1 : cloudy_stream, s1.buffer = 4096 ∧
      ∀ g : GrowthPolicy,
        cloudy_stream_reserve_buffer lp64 g (heapAt4096 1) ⟨4096, 14, 50⟩ 10 4096
          = some (true, heapAt4096 1, s1) :=
  ⟨streamInv_heapAt4096 1 14 50 (by decide) (by simp [lp64, Target.counterMod]) (by decide) rfl,
    by simp [CLOUDY_STREAM_GET_COUNT, deref_heapAt4096],
    cloudy_stream_reserve_buffer_sole_enough lp64 (heapAt4096 1) ⟨4096, 14, 50⟩ 10 4096
      (streamInv_heapAt4096 1 14 50 (by decide) (by simp [lp64, Target.counterMod])
        (by decide) rfl)
      (by simp [CLOUDY_STREAM_GET_COUNT, deref_heapAt4096]) (by decide)⟩

/-- C8: for a stream that satisfies the stream invariants, whose counter is 1, and a size
with `size <= used + free - header` (even when `free < size`),
`cloudy_stream_reserve_buffer` returns true whatever the growth function is (it is not
consulted), leaves the heap (hence the counter) and the buffer pointer unchanged, sets
`used` to the header size and `free` to the old `used + free - header`. -/
theorem cloudy_stream_reserve_buffer_rewind (T : Target) (h : Heap) (s : cloudy_stream)
    (size init_size : Nat) (hinv : StreamInv T h s)
    (hsole : CLOUDY_STREAM_GET_COUNT h s.buffer = some 1)
    (hsize : size ≤ s.used + s.free - CLOUDY_STREAM_COUNTER_SIZE T) :
    ∀ g : GrowthPolicy,
      cloudy_stream_reserve_buffer T g h s size init_size
        = some (true, h,
            { buffer := s.buffer, used := CLOUDY_STREAM_COUNTER_SIZE T,
              free := s.used + s.free - CLOUDY_STREAM_COUNTER_SIZE T }) := by
  intro g
  rw [cloudy_stream_reserve_buffer_sole T g h s size init_size hinv hsole]
  simp [Nat.not_lt.mpr hsize]

/-- Witness of C8: counter 1, `used = 14`, `free = 50`, a request for 55 bytes, more than
is free before the rewind. -/
theorem cloudy_stream_reserve_buffer_rewind_witness :
    StreamInv lp64 (heapAt4096 1) ⟨4096, 14, 50⟩ ∧
    CLOUDY_STREAM_GET_COUNT (heapAt4096 1) 4096 = some 1 ∧
    (55 : Nat) ≤ 14 + 50 - CLOUDY_STREAM_COUNTER_SIZE lp64 ∧
    ∀ g : GrowthPolicy,
      cloudy_stream_reserve_buffer lp64 g (heapAt4096 1) ⟨4096, 14, 50⟩ 55 4096
        = some (true, heapAt4096 1,
            { buffer := 4096, used := CLOUDY_STREAM_COUNTER_SIZE lp64,
              free := 14 + 50 - CLOUDY_STREAM_COUNTER_SIZE lp64 }) :=
  ⟨streamInv_heapAt4096 1 14 50 (by decide) (by simp [lp64, Target.counterMod]) (by decide) rfl,
    by simp [CLOUDY_STREAM_GET_COUNT, deref_heapAt4096],
    by decide,
    cloudy_stream_reserve_buffer_rewind lp64 (heapAt4096 1) ⟨4096, 14, 50⟩ 55 4096
      (streamInv_heapAt4096 1 14 50 (by decide) (by simp [lp64, Target.counterMod])
        (by decide) rfl)
      (by simp [CLOUDY_STREAM_GET_COUNT, deref_heapAt4096]) (by decide)⟩

/-! ## The counter operations -/

theorem Heap.erase_write (h : Heap) (p : Nat) (b : Block) :
    (h.write p b).erase p = h.erase p := by
  unfold Heap.erase Heap.write
  congr 1
  funext q
  by_cases hq : q = p <;> simp [hq]

theorem deref_of_blocks {h : Heap} {p : Nat} {blk : Block} (hp : p ≠ 0)
    (hb : h.blocks p = some blk) : h.deref p = some blk := by
  simp [Heap.deref, hp, hb]

theorem CLOUDY_STREAM_DECR_COUNT_sync (T : Target) (hT : T.backend = Backend.sync) (h : Heap)
    (b : Nat) (blk : Block) (hb : h.deref b = some blk) (hone : 1 ≤ blk.count)
    (hlt : blk.count < T.counterMod) :
    CLOUDY_STREAM_DECR_COUNT T h b
      = some (if blk.count = 1 then h.erase b
          else h.write b { blk with count := blk.count - 1 }) := by
  have hc : (blk.count + T.counterMod - 1) % T.counterMod = blk.count - 1 :=
    sub_mod_of_le _ _ _ hone hlt
  have hb0 : b ≠ 0 := deref_ne_null hb
  unfold CLOUDY_STREAM_DECR_COUNT
  rw [hT]
  simp only [hb, hc]
  by_cases h1 : blk.count = 1
  · have h0 : blk.count - 1 = 0 := by omega
    simp only [h0, h1, if_true, free, hb0, if_false]
    simp [Heap.write, Heap.erase_write]
    rw [← Heap.erase_write h b { count := 0, size := blk.size, data := blk.data }]
    rfl
  · have h0 : blk.count - 1 ≠ 0 := by omega
    simp only [h0, h1, if_false]

/-- C10: on the default (non-`_WIN32`) back end, for a live block whose counter `n` is at
least 1, `cloudy_stream_reference_free` on a handle to it and `cloudy_stream_destroy` on a
stream whose buffer it is both produce the same heap: the block is released exactly when
`n - 1` is 0, and otherwise it stays live with its counter equal to `n - 1` and its size
and bytes unchanged; no other block is touched, and the stream (`buffer`, `used`, `free`)
is returned as it was. -/
theorem decrement_frees_at_zero (T : Target) (hT : T.backend = Backend.sync) (h : Heap)
    (p : Nat) (blk : Block) (s : cloudy_stream) (hs : s.buffer = p)
    (hb : h.deref p = some blk) (hone : 1 ≤ blk.count) (hlt : blk.count < T.counterMod) :
    ∃ h1, cloudy_stream_reference_free T h p = some h1 ∧
      cloudy_stream_destroy T h s = some (h1, s) ∧
      (h1.blocks p = none ↔ blk.count - 1 = 0) ∧
      (blk.count - 1 = 0 → h1 = h.erase p) ∧
      (1 < blk.count → h1 = h.write p { blk with count := blk.count - 1 }) ∧
      (∀ q, q ≠ p → h1.blocks q = h.blocks q) := by
  have hd := CLOUDY_STREAM_DECR_COUNT_sync T hT h p blk hb hone hlt
  refine ⟨_, hd, ?_, ?_, ?_, ?_, ?_⟩
  · simp only [cloudy_stream_destroy, hs, hd]
  · by_cases h1 : blk.count = 1
    · simp [h1, Heap.erase]
    · have h0 : blk.count - 1 ≠ 0 := by omega
      simp [h1, h0, Heap.write]
  · intro h0
    have h1 : blk.count = 1 := by omega
    simp [h1]
  · intro hgt
    have h1 : blk.count ≠ 1 := by omega
    simp [h1]
  · intro q hq
    by_cases h1 : blk.count = 1
    · simp [h1, Heap.erase, hq]
    · simp [h1, Heap.write, hq]

/-- Witness of C10: a block with counter 2, then the same with counter 1. -/
theorem decrement_frees_at_zero_witness :
    (∃ h1, cloudy_stream_reference_free lp64 (heapAt4096 2) 4096 = some h1 ∧
      cloudy_stream_destroy lp64 (heapAt4096 2) ⟨4096, 14, 50⟩ = some (h1, ⟨4096, 14, 50⟩) ∧
      (h1.blocks 4096 = none ↔ 2 - 1 = 0) ∧
      (2 - 1 = 0 → h1 = (heapAt4096 2).erase 4096) ∧
      (1 < 2 → h1 = (heapAt4096 2).write 4096
        { count := 2 - 1, size := 64, data := List.replicate 60 0 }) ∧
      (∀ q, q ≠ 4096 → h1.blocks q = (heapAt4096 2).blocks q)) ∧
    (∃ h1, cloudy_stream_reference_free lp64 (heapAt4096 1) 4096 = some h1 ∧
      cloudy_stream_destroy lp64 (heapAt4096 1) ⟨4096, 14, 50⟩ = some (h1, ⟨4096, 14, 50⟩) ∧
      (h1.blocks 4096 = none ↔ 1 - 1 = 0) ∧
      (1 - 1 = 0 → h1 = (heapAt4096 1).erase 4096) ∧
      (1 < 1 → h1 = (heapAt4096 1).write 4096
        { count := 1 - 1, size := 64, data := List.replicate 60 0 }) ∧
      (∀ q, q ≠ 4096 → h1.blocks q = (heapAt4096 1).blocks q)) :=
  ⟨decrement_frees_at_zero lp64 rfl (heapAt4096 2) 4096
      { count := 2, size := 64, data := List.replicate 60 0 } ⟨4096, 14, 50⟩ rfl
      (deref_heapAt4096 2) (by decide) (by simp [lp64, Target.counterMod]),
    decrement_frees_at_zero lp64 rfl (heapAt4096 1) 4096
      { count := 1, size := 64, data := List.replicate 60 0 } ⟨4096, 14, 50⟩ rfl
      (deref_heapAt4096 1) (by decide) (by simp [lp64, Target.counterMod])⟩

/-! ## Reference-count lifecycle -/

theorem agree_allocate (T : Target) (p n0 : Nat) (w : World) (l : Ledger) (size : Nat)
    (hag : Agree T p n0 w l) (hcur : l.cursor = true) (hsz : size ≤ l.room)
    (hpins : l.pins + 1 < T.counterMod) :
    ∃ w1, w.step T (Op.allocate size) = Except.ok w1 ∧
      Agree T p n0 w1
        { cursor := l.cursor, handles := l.handles + 1, room := l.room - size } := by
  have hpos : 0 < l.pins := by simp [Ledger.pins, hcur]
  obtain ⟨blk, hblk, hcnt⟩ := hag.live hpos
  have hderef : w.heap.deref w.stream.buffer = some blk := by
    rw [hag.buffer]; exact deref_of_blocks hag.nonnull hblk
  have hal := cloudy_stream_allocate_eq T w.heap w.stream size blk hderef
    (by rw [hag.room]; exact hsz)
  have hd : w.destroyed = false := by rw [hag.destroyed, hcur]; rfl
  have hmod : (blk.count + 1) % T.counterMod = l.pins + 1 := by
    rw [hcnt]; exact Nat.mod_eq_of_lt hpins
  have hfree : (w.stream.free + T.sizeMod - size) % T.sizeMod = l.room - size := by
    rw [hag.room]; exact sub_mod_of_le _ _ _ hsz hag.room_lt
  have hstep : w.step T (Op.allocate size) = Except.ok
      { heap := w.heap.write p { blk with count := (blk.count + 1) % T.counterMod },
        stream := { buffer := p, used := (w.stream.used + size) % T.sizeMod,
                    free := (w.stream.free + T.sizeMod - size) % T.sizeMod },
        handles := p :: w.handles, destroyed := w.destroyed } := by
    simp only [World.step, hd, hal, hag.buffer, hag.nonnull]
    rfl
  refine ⟨_, hstep, ?_⟩
  · have hroom := hag.room_lt
    constructor
    · rfl
    · exact hag.nonnull
    · exact hfree
    · show l.room - size < T.sizeMod
      omega
    · exact hag.destroyed
    · show p :: w.handles = List.replicate (l.handles + 1) p
      rw [hag.handles]; rfl
    · intro _
      refine ⟨{ blk with count := (blk.count + 1) % T.counterMod }, ?_, ?_⟩
      · simp [Heap.write, hag.buffer]
      · rw [hmod]; simp [Ledger.pins]; omega
    · intro h0
      simp [Ledger.pins] at h0
    · have hne : ¬ ((if l.cursor = true then 1 else 0) + (l.handles + 1) = 0) := by omega
      have hne0 : ¬ l.pins = 0 := by omega
      have := hag.freed
      simp only [hne0, if_false] at this
      simp only [Ledger.pins, hne, if_false]
      exact this

theorem agree_copy (T : Target) (p n0 : Nat) (w : World) (l : Ledger) (i : Nat)
    (hag : Agree T p n0 w l) (hi : i < l.handles) (hpins : l.pins + 1 < T.counterMod) :
    ∃ w1, w.step T (Op.reference_copy i) = Except.ok w1 ∧
      Agree T p n0 w1 { cursor := l.cursor, handles := l.handles + 1, room := l.room } := by
  have hpos : 0 < l.pins := by simp [Ledger.pins]; omega
  obtain ⟨blk, hblk, hcnt⟩ := hag.live hpos
  have hderef : w.heap.deref p = some blk := deref_of_blocks hag.nonnull hblk
  have hget : w.handles[i]? = some p := by
    rw [hag.handles]; exact List.getElem?_replicate_of_lt hi
  have hmod : (blk.count + 1) % T.counterMod = l.pins + 1 := by
    rw [hcnt]; exact Nat.mod_eq_of_lt hpins
  have hstep : w.step T (Op.reference_copy i) = Except.ok
      { heap := w.heap.write p { blk with count := (blk.count + 1) % T.counterMod },
        stream := w.stream, handles := p :: w.handles, destroyed := w.destroyed } := by
    simp only [World.step, hget, cloudy_stream_reference_copy,
      CLOUDY_STREAM_INCR_COUNT_eq T w.heap p blk hderef]
  refine ⟨_, hstep, ?_⟩
  · constructor
    · exact hag.buffer
    · exact hag.nonnull
    · exact hag.room
    · exact hag.room_lt
    · exact hag.destroyed
    · show p :: w.handles = List.replicate (l.handles + 1) p
      rw [hag.handles]; rfl
    · intro _
      refine ⟨{ blk with count := (blk.count + 1) % T.counterMod }, ?_, ?_⟩
      · simp [Heap.write]
      · rw [hmod]; simp [Ledger.pins]; omega
    · intro h0
      simp [Ledger.pins] at h0
    · have hne : ¬ ((if l.cursor = true then 1 else 0) + (l.handles + 1) = 0) := by omega
      have hne0 : ¬ l.pins = 0 := by omega
      have := hag.freed
      simp only [hne0, if_false] at this
      simp only [Ledger.pins, hne, if_false]
      exact this

/-- Dropping one pin: the heap after the decrement agrees with the bookkeeping after it. -/
theorem agree_release (T : Target) (p n0 : Nat) (w : World) (l l1 : Ledger) (blk : Block)
    (handles : List Nat) (destroyed : Bool)
    (hag : Agree T p n0 w l) (hcnt : blk.count = l.pins)
    (hpos : 0 < l.pins) (hpins1 : l1.pins = l.pins - 1) (hroom : l1.room = l.room)
    (hd : destroyed = !l1.cursor) (hh : handles = List.replicate l1.handles p) :
    Agree T p n0
      { heap := if blk.count = 1 then w.heap.erase p
          else w.heap.write p { blk with count := blk.count - 1 },
        stream := w.stream, handles := handles, destroyed := destroyed } l1 := by
  constructor
  · exact hag.buffer
  · exact hag.nonnull
  · show w.stream.free = l1.room
    rw [hroom]; exact hag.room
  · rw [hroom]; exact hag.room_lt
  · exact hd
  · exact hh
  · intro h1
    have hne : blk.count ≠ 1 := by omega
    refine ⟨{ blk with count := blk.count - 1 }, ?_, ?_⟩
    · simp [hne, Heap.write]
    · show blk.count - 1 = l1.pins
      omega
  · intro h0
    have h1 : blk.count = 1 := by omega
    simp [h1, Heap.erase]
  · have hold := hag.freed
    have hne0 : ¬ l.pins = 0 := by omega
    simp only [hne0, if_false] at hold
    by_cases h1 : blk.count = 1
    · have h0 : l1.pins = 0 := by omega
      simp only [h1, if_true, h0, Heap.erase, List.count_cons_self]
      omega
    · have h0 : ¬ l1.pins = 0 := by omega
      simp only [h1, if_false, h0, Heap.write]
      exact hold

theorem agree_free (T : Target) (hT : T.backend = Backend.sync) (p n0 : Nat) (w : World)
    (l : Ledger) (i : Nat) (hag : Agree T p n0 w l) (hi : i < l.handles)
    (hpins : l.pins < T.counterMod) :
    ∃ w1, w.step T (Op.reference_free i) = Except.ok w1 ∧
      Agree T p n0 w1 { cursor := l.cursor, handles := l.handles - 1, room := l.room } := by
  have hpos : 0 < l.pins := by simp [Ledger.pins]; omega
  obtain ⟨blk, hblk, hcnt⟩ := hag.live hpos
  have hderef : w.heap.deref p = some blk := deref_of_blocks hag.nonnull hblk
  have hget : w.handles[i]? = some p := by
    rw [hag.handles]; exact List.getElem?_replicate_of_lt hi
  have hdec := CLOUDY_STREAM_DECR_COUNT_sync T hT w.heap p blk hderef (by omega) (by omega)
  have hstep : w.step T (Op.reference_free i) = Except.ok
      { heap := if blk.count = 1 then w.heap.erase p
          else w.heap.write p { blk with count := blk.count - 1 },
        stream := w.stream, handles := w.handles.eraseIdx i, destroyed := w.destroyed } := by
    simp only [World.step, hget, cloudy_stream_reference_free, hdec]
  refine ⟨_, hstep, ?_⟩
  apply agree_release T p n0 w l _ blk _ _ hag hcnt hpos
  · simp only [Ledger.pins]; omega
  · rfl
  · exact hag.destroyed
  · rw [hag.handles, List.eraseIdx_replicate]
    simp [hi]

theorem agree_destroy (T : Target) (hT : T.backend = Backend.sync) (p n0 : Nat) (w : World)
    (l : Ledger) (hag : Agree T p n0 w l) (hcur : l.cursor = true)
    (hpins : l.pins < T.counterMod) :
    ∃ w1, w.step T Op.destroy = Except.ok w1 ∧
      Agree T p n0 w1 { cursor := false, handles := l.handles, room := l.room } := by
  have hpos : 0 < l.pins := by simp [Ledger.pins, hcur]
  obtain ⟨blk, hblk, hcnt⟩ := hag.live hpos
  have hderef : w.heap.deref w.stream.buffer = some blk := by
    rw [hag.buffer]; exact deref_of_blocks hag.nonnull hblk
  have hd : w.destroyed = false := by rw [hag.destroyed, hcur]; rfl
  have hdec := CLOUDY_STREAM_DECR_COUNT_sync T hT w.heap w.stream.buffer blk hderef
    (by omega) (by omega)
  rw [hag.buffer] at hdec
  have hstep : w.step T Op.destroy = Except.ok
      { heap := if blk.count = 1 then w.heap.erase p
          else w.heap.write p { blk with count := blk.count - 1 },
        stream := w.stream, handles := w.handles, destroyed := true } := by
    simp only [World.step, hd, cloudy_stream_destroy, hag.buffer, hdec]
    rfl
  refine ⟨_, hstep, ?_⟩
  apply agree_release T p n0 w l _ blk _ _ hag hcnt hpos
  · simp only [Ledger.pins, hcur]; simp
  · rfl
  · rfl
  · exact hag.handles

theorem agree_step (T : Target) (hT : T.backend = Backend.sync) (p n0 : Nat) (w : World)
    (l l1 : Ledger) (op : Op) (hag : Agree T p n0 w l) (hstep : l.step op = some l1)
    (hpins : l.pins < T.counterMod) (hpins1 : l1.pins < T.counterMod) :
    ∃ w1, w.step T op = Except.ok w1 ∧ Agree T p n0 w1 l1 := by
  cases op with
  | allocate size =>
    simp only [Ledger.step] at hstep
    split at hstep
    · rename_i hc
      injection hstep with hl
      subst hl
      exact agree_allocate T p n0 w l size hag hc.1 hc.2
        (by simp only [Ledger.pins] at hpins1 ⊢; omega)
    · exact absurd hstep (by simp)
  | reference_copy i =>
    simp only [Ledger.step] at hstep
    split at hstep
    · rename_i hc
      injection hstep with hl
      subst hl
      exact agree_copy T p n0 w l i hag hc (by simp only [Ledger.pins] at hpins1 ⊢; omega)
    · exact absurd hstep (by simp)
  | reference_free i =>
    simp only [Ledger.step] at hstep
    split at hstep
    · rename_i hc
      injection hstep with hl
      subst hl
      exact agree_free T hT p n0 w l i hag hc hpins
    · exact absurd hstep (by simp)
  | destroy =>
    simp only [Ledger.step] at hstep
    split at hstep
    · rename_i hc
      injection hstep with hl
      subst hl
      exact agree_destroy T hT p n0 w l hag hc hpins
    · exact absurd hstep (by simp)

theorem agree_run (T : Target) (hT : T.backend = Backend.sync) (p n0 : Nat) (ops : List Op) :
    ∀ (w : World) (l lf : Ledger), Agree T p n0 w l → Ledger.run l ops = some lf →
      Ledger.peak l ops < T.counterMod →
      ∃ wf, World.run T w ops = Except.ok wf ∧ Agree T p n0 wf lf := by
  induction ops with
  | nil =>
    intro w l lf hag hrun _
    simp only [Ledger.run] at hrun
    injection hrun with hl
    subst hl
    exact ⟨w, rfl, hag⟩
  | cons op ops ih =>
    intro w l lf hag hrun hpeak
    simp only [Ledger.run] at hrun
    simp only [Ledger.peak] at hpeak
    cases hs : l.step op with
    | none => simp [hs] at hrun
    | some l1 =>
      simp only [hs] at hrun hpeak
      have hp0 : l.pins < T.counterMod := lt_of_le_of_lt (le_max_left _ _) hpeak
      have hp1 : Ledger.peak l1 ops < T.counterMod := lt_of_le_of_lt (le_max_right _ _) hpeak
      have hp2 : l1.pins < T.counterMod := by
        cases ops with
        | nil => simpa [Ledger.peak] using hp1
        | cons op2 ops2 =>
          simp only [Ledger.peak] at hp1
          cases hs2 : l1.step op2 with
          | none => simpa [hs2] using hp1
          | some l2 =>
            simp only [hs2] at hp1
            exact lt_of_le_of_lt (le_max_left _ _) hp1
      obtain ⟨w1, hw1, hag1⟩ := agree_step T hT p n0 w l l1 op hag hs hp0 hp2
      obtain ⟨wf, hwf, hagf⟩ := ih w1 l1 lf hag1 hrun hp1
      refine ⟨wf, ?_, hagf⟩
      simp only [World.run, hw1]
      exact hwf

theorem agree_init (T : Target) (a : Allocator) (h0 : Heap) (c : Nat)
    (hc : c < 2 ^ T.sizeBits) (ha : a.addr ≠ 0) :
    Agree T a.addr (h0.freed.count a.addr)
      { heap := initHeap T a h0 c,
        stream := { buffer := a.addr, used := CLOUDY_STREAM_COUNTER_SIZE T,
                    free := c - CLOUDY_STREAM_COUNTER_SIZE T },
        handles := [], destroyed := false }
      (Ledger.init T c) := by
  have hone : 1 % T.counterMod = 1 := Nat.mod_eq_of_lt T.one_lt_counterMod
  constructor
  · rfl
  · exact ha
  · rfl
  · show c - CLOUDY_STREAM_COUNTER_SIZE T < T.sizeMod
    unfold Target.sizeMod
    omega
  · rfl
  · rfl
  · intro _
    refine ⟨{ count := 1 % T.counterMod, size := c, data := a.data }, ?_, ?_⟩
    · simp [initHeap, Heap.write]
    · rw [hone]; rfl
  · intro h0
    simp [Ledger.pins, Ledger.init] at h0
  · simp [Ledger.pins, Ledger.init, initHeap, Heap.write]

theorem ledger_run_take (ops : List Op) :
    ∀ (l lf : Ledger) (k : Nat), Ledger.run l ops = some lf →
      ∃ lk, Ledger.run l (ops.take k) = some lk := by
  induction ops with
  | nil =>
    intro l lf k _
    exact ⟨l, by simp [Ledger.run]⟩
  | cons op ops ih =>
    intro l lf k hrun
    cases k with
    | zero => exact ⟨l, by simp [Ledger.run]⟩
    | succ k =>
      simp only [Ledger.run] at hrun
      cases hs : l.step op with
      | none => simp [hs] at hrun
      | some l1 =>
        simp only [hs] at hrun
        obtain ⟨lk, hlk⟩ := ih l1 lf k hrun
        exact ⟨lk, by simp only [List.take_succ_cons, Ledger.run, hs]; exact hlk⟩

theorem ledger_pins_le_peak (l : Ledger) (ops : List Op) : l.pins ≤ Ledger.peak l ops := by
  cases ops with
  | nil => exact le_refl _
  | cons op ops =>
    simp only [Ledger.peak]
    cases l.step op with
    | none => exact le_refl _
    | some l1 => exact le_max_left _ _

theorem ledger_peak_take (ops : List Op) :
    ∀ (l : Ledger) (k : Nat), Ledger.peak l (ops.take k) ≤ Ledger.peak l ops := by
  induction ops with
  | nil =>
    intro l k
    simp
  | cons op ops ih =>
    intro l k
    cases k with
    | zero => exact ledger_pins_le_peak l (op :: ops)
    | succ k =>
      simp only [List.take_succ_cons, Ledger.peak]
      cases l.step op with
      | none => exact le_refl _
      | some l1 => exact max_le_max (le_refl _) (ih l1 k)

/-- C9, amended: on the default (non-`_WIN32`) back end, take a successful
`cloudy_stream_init(c)` followed by any sequence of calls that the bookkeeping allows
(successful `allocate`, `reference_copy` and `reference_free` of handles that are held,
at most one `destroy`) and along which the number of live pins stays below the number
of `unsigned int` values. Then after each step `k` the calls made so far are all defined,
every handle held is the base address of the block, the embedded counter equals the
number of live pins while that number is positive, the block is gone exactly when that
number is 0, and the address has been released exactly once when that number is 0 and
not at all before. -/
theorem refcount_lifecycle (T : Target) (hT : T.backend = Backend.sync) (a : Allocator)
    (h0 : Heap) (s0 : cloudy_stream) (c : Nat) (hc : c < 2 ^ T.sizeBits)
    (hle : CLOUDY_STREAM_COUNTER_SIZE T ≤ c) (ha : a.addr ≠ 0) (ops : List Op)
    (lf : Ledger) (hrun : Ledger.run (Ledger.init T c) ops = some lf)
    (hpeak : Ledger.peak (Ledger.init T c) ops < T.counterMod) (k : Nat) :
    ∃ h1 s1 lk wk,
      cloudy_stream_init T a h0 s0 c = some (true, h1, s1) ∧
      Ledger.run (Ledger.init T c) (ops.take k) = some lk ∧
      World.run T { heap := h1, stream := s1, handles := [], destroyed := false }
        (ops.take k) = Except.ok wk ∧
      wk.handles = List.replicate lk.handles a.addr ∧
      (0 < lk.pins → CLOUDY_STREAM_GET_COUNT wk.heap a.addr = some lk.pins) ∧
      (wk.heap.blocks a.addr = none ↔ lk.pins = 0) ∧
      wk.heap.freed.count a.addr
        = h0.freed.count a.addr + (if lk.pins = 0 then 1 else 0) := by
  obtain ⟨lk, hlk⟩ := ledger_run_take ops _ lf k hrun
  have hpk : Ledger.peak (Ledger.init T c) (ops.take k) < T.counterMod :=
    lt_of_le_of_lt (ledger_peak_take ops _ k) hpeak
  obtain ⟨wk, hwk, hag⟩ := agree_run T hT a.addr (h0.freed.count a.addr) (ops.take k) _ _ lk
    (agree_init T a h0 c hc ha) hlk hpk
  refine ⟨_, _, lk, wk, cloudy_stream_init_ok T a h0 s0 c hc hle ha, hlk, hwk, hag.handles,
    ?_, ?_, hag.freed⟩
  · intro hpos
    obtain ⟨blk, hblk, hcnt⟩ := hag.live hpos
    simp [CLOUDY_STREAM_GET_COUNT, deref_of_blocks hag.nonnull hblk, hcnt]
  · constructor
    · intro hnone
      by_contra hne
      obtain ⟨blk, hblk, _⟩ := hag.live (Nat.pos_of_ne_zero hne)
      rw [hnone] at hblk
      exact absurd hblk (by simp)
    · exact hag.dead

/-- Witness of the amended C9: `init(64)`, `allocate(10)`, a copy, two frees and
`destroy`, observed after the fourth call. -/
theorem refcount_lifecycle_witness :
    ∃ h1 s1 lk wk,
      cloudy_stream_init lp64 ⟨4096, 0, []⟩ Heap.empty ⟨0, 0, 0⟩ 64 = some (true, h1, s1) ∧
      Ledger.run (Ledger.init lp64 64)
        ([Op.allocate 10, Op.reference_copy 0, Op.reference_free 0, Op.reference_free 0,
          Op.destroy].take 4) = some lk ∧
      World.run lp64 { heap := h1, stream := s1, handles := [], destroyed := false }
        ([Op.allocate 10, Op.reference_copy 0, Op.reference_free 0, Op.reference_free 0,
          Op.destroy].take 4) = Except.ok wk ∧
      wk.handles = List.replicate lk.handles 4096 ∧
      (0 < lk.pins → CLOUDY_STREAM_GET_COUNT wk.heap 4096 = some lk.pins) ∧
      (wk.heap.blocks 4096 = none ↔ lk.pins = 0) ∧
      wk.heap.freed.count 4096
        = Heap.empty.freed.count 4096 + (if lk.pins = 0 then 1 else 0) :=
  refcount_lifecycle lp64 rfl ⟨4096, 0, []⟩ Heap.empty ⟨0, 0, 0⟩ 64 (by decide) (by decide)
    (by decide)
    [Op.allocate 10, Op.reference_copy 0, Op.reference_free 0, Op.reference_free 0, Op.destroy]
    { cursor := false, handles := 0, room := 50 } (by decide) (by decide) 4

/-! ## The counter wraps -/

theorem world_run_cons_ok (T : Target) (w w1 : World) (op : Op) (ops : List Op)
    (hstep : w.step T op = Except.ok w1) :
    World.run T w (op :: ops) = World.run T w1 ops := by
  rw [World.run, hstep]

theorem ledger_run_cons_some (l l1 : Ledger) (op : Op) (ops : List Op)
    (hstep : l.step op = some l1) :
    Ledger.run l (op :: ops) = Ledger.run l1 ops := by
  rw [Ledger.run, hstep]

theorem ledger_run_copies (k : Nat) :
    ∀ l : Ledger, 0 < l.handles →
      Ledger.run l (List.replicate k (Op.reference_copy 0))
        = some { cursor := l.cursor, handles := l.handles + k, room := l.room } := by
  induction k with
  | zero =>
    intro l _
    rfl
  | succ k ih =>
    intro l hl
    have hstep : l.step (Op.reference_copy 0)
        = some { cursor := l.cursor, handles := l.handles + 1, room := l.room } := by
      simp [Ledger.step, hl]
    rw [List.replicate_succ, ledger_run_cons_some _ _ _ _ hstep, ih _ (Nat.succ_pos _)]
    simp only [Nat.add_assoc, Nat.add_comm 1 k]

theorem world_run_copies (T : Target) (p : Nat) (hp : p ≠ 0) (k : Nat) :
    ∀ (w : World) (n c : Nat), 0 < n → w.handles = List.replicate n p →
      (∃ blk, w.heap.blocks p = some blk ∧ blk.count = c % T.counterMod) →
      ∃ wf, World.run T w (List.replicate k (Op.reference_copy 0)) = Except.ok wf ∧
        ∃ blk, wf.heap.blocks p = some blk ∧ blk.count = (c + k) % T.counterMod := by
  induction k with
  | zero =>
    intro w n c _ _ hblk
    exact ⟨w, rfl, hblk⟩
  | succ k ih =>
    intro w n c hn hh hblk
    obtain ⟨blk, hb, hcnt⟩ := hblk
    have hget : w.handles[0]? = some p := by
      rw [hh]; exact List.getElem?_replicate_of_lt hn
    have hstep : w.step T (Op.reference_copy 0) = Except.ok
        { heap := w.heap.write p { blk with count := (blk.count + 1) % T.counterMod },
          stream := w.stream, handles := p :: w.handles, destroyed := w.destroyed } := by
      simp only [World.step, hget, cloudy_stream_reference_copy,
        CLOUDY_STREAM_INCR_COUNT_eq T w.heap p blk (deref_of_blocks hp hb)]
    rw [List.replicate_succ, world_run_cons_ok _ _ _ _ _ hstep]
    have hnext := ih
      { heap := w.heap.write p { blk with count := (blk.count + 1) % T.counterMod },
        stream := w.stream, handles := p :: w.handles, destroyed := w.destroyed }
      (n + 1) (c + 1) (Nat.succ_pos _)
      (show p :: w.handles = List.replicate (n + 1) p by rw [hh]; rfl)
      ⟨{ blk with count := (blk.count + 1) % T.counterMod }, by simp [Heap.write],
        by show (blk.count + 1) % T.counterMod = (c + 1) % T.counterMod
           rw [hcnt, Nat.add_mod, Nat.mod_mod, ← Nat.add_mod]⟩
    obtain ⟨wf, hwf, blk2, hb2, hcnt2⟩ := hnext
    refine ⟨wf, hwf, blk2, hb2, ?_⟩
    rw [hcnt2]
    congr 1
    omega

/-- C9 as stated fails: after `init(64)`, one `allocate(0)` and `UINT_MAX - 1` calls of
`reference_copy` the sequence is well formed and there are `2 ^ 32` live pins (the stream
and `2 ^ 32 - 1` handles), but the embedded `unsigned int` counter has wrapped to 0. -/
theorem refcount_wraps_at_uint_max :
    ∃ h1 s1 lf wf,
      cloudy_stream_init lp64 ⟨4096, 0, []⟩ Heap.empty ⟨0, 0, 0⟩ 64 = some (true, h1, s1) ∧
      Ledger.run (Ledger.init lp64 64)
        (Op.allocate 0 :: List.replicate 4294967294 (Op.reference_copy 0)) = some lf ∧
      lf.pins = 4294967296 ∧
      World.run lp64 { heap := h1, stream := s1, handles := [], destroyed := false }
        (Op.allocate 0 :: List.replicate 4294967294 (Op.reference_copy 0)) = Except.ok wf ∧
      CLOUDY_STREAM_GET_COUNT wf.heap 4096 = some 0 := by
  have hag0 := agree_init lp64 ⟨4096, 0, []⟩ Heap.empty 64 (by decide) (by decide)
  obtain ⟨w1, hw1, hag1⟩ := agree_allocate lp64 4096 _ _ _ 0 hag0 rfl (Nat.zero_le _)
    (by decide)
  have hl1 : (Ledger.init lp64 64).step (Op.allocate 0)
      = some { cursor := true, handles := 1, room := 60 } := by decide
  obtain ⟨blk, hblk, hcnt⟩ := hag1.live (by decide)
  obtain ⟨wf, hwf, blk2, hb2, hcnt2⟩ := world_run_copies lp64 4096 (by decide) 4294967294
    w1 1 2 (by decide) hag1.handles ⟨blk, hblk, hcnt⟩
  refine ⟨_, _, { cursor := true, handles := 1 + 4294967294, room := 60 }, wf,
    cloudy_stream_init_ok lp64 _ _ _ 64 (by decide) (by decide) (by decide), ?_, ?_, ?_, ?_⟩
  · rw [ledger_run_cons_some _ _ _ _ hl1]
    exact ledger_run_copies 4294967294 _ (by decide)
  · decide
  · rw [world_run_cons_ok _ _ _ _ _ hw1]
    exact hwf
  · have h0 : (2 + 4294967294) % lp64.counterMod = 0 := by decide
    rw [h0] at hcnt2
    simp [CLOUDY_STREAM_GET_COUNT, deref_of_blocks (show (4096 : Nat) ≠ 0 by decide) hb2, hcnt2]

/-! ## Copying a handle -/

/-- C11 as stated fails: with the counter at `UINT_MAX` the copy leaves the counter at 0
instead of `UINT_MAX + 1`. -/
theorem cloudy_stream_reference_copy_wraps :
    CLOUDY_STREAM_GET_COUNT (heapAt4096 4294967295) 4096 = some 4294967295 ∧
    (cloudy_stream_reference_copy lp64 (heapAt4096 4294967295) 4096).bind
        (fun r => CLOUDY_STREAM_GET_COUNT r.2 r.1) = some 0 := by
  constructor
  · simp [CLOUDY_STREAM_GET_COUNT, deref_heapAt4096]
  · simp only [cloudy_stream_reference_copy,
      CLOUDY_STREAM_INCR_COUNT_eq lp64 _ 4096 _ (deref_heapAt4096 _)]
    simp [CLOUDY_STREAM_GET_COUNT, Heap.deref, Heap.write, lp64, Target.counterMod]

/-- C11, amended: for every handle to a live block whose counter is below `UINT_MAX`, on
either back end, `cloudy_stream_reference_copy(handle)` returns its argument and a heap
that differs from the old one only in the counter of that block, which is larger by
exactly 1; size and bytes of the block, the other blocks and the log of releases are as
before, and no stream is written (the function receives none). -/
theorem cloudy_stream_reference_copy_ok (T : Target) (h : Heap) (reference : Nat)
    (blk : Block) (hb : h.deref reference = some blk)
    (hcount : blk.count + 1 < T.counterMod) :
    cloudy_stream_reference_copy T h reference
      = some (reference, h.write reference { blk with count := blk.count + 1 }) := by
  simp only [cloudy_stream_reference_copy, CLOUDY_STREAM_INCR_COUNT_eq T h reference blk hb,
    Nat.mod_eq_of_lt hcount]

/-- Witness of the amended C11: a copy of a handle to a block with counter 2. -/
theorem cloudy_stream_reference_copy_ok_witness :
    cloudy_stream_reference_copy lp64 (heapAt4096 2) 4096
      = some (4096, (heapAt4096 2).write 4096
          { count := 2 + 1, size := 64, data := List.replicate 60 0 }) :=
  cloudy_stream_reference_copy_ok lp64 (heapAt4096 2) 4096
    { count := 2, size := 64, data := List.replicate 60 0 } (deref_heapAt4096 2)
    (by simp [lp64, Target.counterMod])

/-! ## Failure of cloudy_stream_init -/

/-- C14 as stated fails: `init(2)` on a stream whose buffer field is 4096 returns false
and the buffer field is still 4096. -/
theorem cloudy_stream_init_too_small_keeps_buffer :
    (2 : Nat) < CLOUDY_STREAM_COUNTER_SIZE lp64 ∧
    cloudy_stream_init lp64 ⟨8192, 0, []⟩ (heapAt4096 1) ⟨4096, 14, 50⟩ 2
      = some (false, heapAt4096 1, ⟨4096, 14, 50⟩) ∧
    (⟨4096, 14, 50⟩ : cloudy_stream).buffer ≠ 0 := by
  refine ⟨by decide, ?_, by decide⟩
  simp [cloudy_stream_init, CLOUDY_STREAM_COUNTER_SIZE, lp64]

/-- C14, amended: for every input stream and every capacity `cloudy_stream_init` is
defined, and if it returns false then the heap is as before (no block is attached by the
call) and either the capacity is at least the header size, `malloc` has failed and the
buffer field is null, or the capacity is below the header size and the stream, its
buffer field included, is exactly as it was. -/
theorem cloudy_stream_init_failure (T : Target) (a : Allocator) (h : Heap)
    (stream : cloudy_stream) (c : Nat) :
    ∃ r, cloudy_stream_init T a h stream c = some r ∧
      (r.1 = false →
        r.2.1 = h ∧
        ((CLOUDY_STREAM_COUNTER_SIZE T ≤ c ∧ a.addr = 0 ∧ r.2.2.buffer = 0 ∧
            r.2.2.used = stream.used ∧ r.2.2.free = stream.free) ∨
          (c < CLOUDY_STREAM_COUNTER_SIZE T ∧ r.2.2 = stream))) := by
  by_cases hlt : c < CLOUDY_STREAM_COUNTER_SIZE T
  · refine ⟨(false, h, stream), by simp [cloudy_stream_init, hlt], ?_⟩
    intro _
    exact ⟨rfl, Or.inr ⟨hlt, rfl⟩⟩
  · by_cases ha : a.addr = 0
    · refine ⟨(false, h, { stream with buffer := 0 }), ?_, ?_⟩
      · simp [cloudy_stream_init, hlt, malloc, ha]
      · intro _
        exact ⟨rfl, Or.inl ⟨Nat.not_lt.mp hlt, ha, rfl, rfl, rfl⟩⟩
    · refine ⟨(true, initHeap T a h c,
          { buffer := a.addr, used := CLOUDY_STREAM_COUNTER_SIZE T,
            free := (c + T.sizeMod - CLOUDY_STREAM_COUNTER_SIZE T) % T.sizeMod }), ?_, ?_⟩
      · simp only [cloudy_stream_init, hlt, if_false, malloc, ha, CLOUDY_STREAM_INIT_COUNT,
          Heap.deref_write_same _ _ _ ha, initHeap]
      · intro hr
        simp at hr

/-! ## Accessors -/

theorem cloudy_stream_buffer_exact (T : Target) (stream : cloudy_stream)
    (hptr : stream.buffer + stream.used < T.pointerMod) :
    cloudy_stream_buffer T stream = stream.buffer + stream.used := by
  unfold cloudy_stream_buffer
  exact Nat.mod_eq_of_lt hptr

theorem streamInv_pointer_fits {T : Target} {h : Heap} {s : cloudy_stream}
    (hinv : StreamInv T h s) (hspace : h.inAddressSpace T) :
    s.buffer + (s.used + s.free) < T.pointerMod := by
  obtain ⟨blk, hb, _, _, _, hcap, _⟩ := hinv
  have hp : s.buffer ≠ 0 := deref_ne_null hb
  have hblk : h.blocks s.buffer = some blk := by simpa [Heap.deref, hp] using hb
  have := hspace s.buffer blk hblk
  omega

theorem heapAt4096_inAddressSpace (n : Nat) : (heapAt4096 n).inAddressSpace lp64 := by
  intro p blk hblk
  by_cases hp : p = 4096
  · subst hp
    simp [heapAt4096, Heap.write] at hblk
    subst hblk
    simp [lp64, Target.pointerMod]
  · simp [heapAt4096, Heap.write, Heap.empty, hp] at hblk

/-- C16 as stated fails: with `buffer = 4096` and `used = SIZE_MAX` the pointer sum wraps
and `cloudy_stream_buffer` returns 4095, not the base plus `used`. -/
theorem cloudy_stream_buffer_wraps :
    cloudy_stream_buffer lp64 ⟨4096, 18446744073709551615, 1⟩ = 4095 ∧
    (⟨4096, 18446744073709551615, 1⟩ : cloudy_stream).buffer
      + (⟨4096, 18446744073709551615, 1⟩ : cloudy_stream).used ≠ 4095 := by
  constructor
  · simp [cloudy_stream_buffer, lp64, Target.pointerMod]
  · decide

/-- C16, amended: for every heap and every stream, `cloudy_stream_buffer_capacity`
returns exactly the `free` field and `cloudy_stream_buffer` returns the buffer pointer
plus the `used` field reduced modulo the pointer width; that is exactly the buffer
pointer plus `used` whenever the sum is a pointer value, as it is for a stream that
satisfies the stream invariants on a heap whose blocks lie inside the address space.
After either call the heap (hence the counter) and the stream (`buffer`, `used`, `free`)
are as before. -/
theorem accessors_read_only (T : Target) (h : Heap) (stream : cloudy_stream) :
    cloudy_stream_buffer_capacity stream = stream.free ∧
    cloudy_stream_buffer T stream = (stream.buffer + stream.used) % T.pointerMod ∧
    (stream.buffer + stream.used < T.pointerMod →
      cloudy_stream_buffer T stream = stream.buffer + stream.used) ∧
    (StreamInv T h stream → h.inAddressSpace T →
      cloudy_stream_buffer T stream = stream.buffer + stream.used) ∧
    cloudy_stream_buffer_capacity_call h stream = (stream.free, h, stream) ∧
    cloudy_stream_buffer_call T h stream = (cloudy_stream_buffer T stream, h, stream) := by
  refine ⟨rfl, rfl, cloudy_stream_buffer_exact T stream, ?_, rfl, rfl⟩
  intro hinv hspace
  have := streamInv_pointer_fits hinv hspace
  exact cloudy_stream_buffer_exact T stream (by omega)

/-- Witness of the amended C16: `buffer = 4096`, `used = 14`, `free = 50` on a 64-byte
block. -/
theorem accessors_read_only_witness :
    cloudy_stream_buffer_capacity ⟨4096, 14, 50⟩ = 50 ∧
    cloudy_stream_buffer lp64 ⟨4096, 14, 50⟩ = (4096 + 14) % lp64.pointerMod ∧
    (4096 + 14 < lp64.pointerMod → cloudy_stream_buffer lp64 ⟨4096, 14, 50⟩ = 4096 + 14) ∧
    (StreamInv lp64 (heapAt4096 1) ⟨4096, 14, 50⟩ → (heapAt4096 1).inAddressSpace lp64 →
      cloudy_stream_buffer lp64 ⟨4096, 14, 50⟩ = 4096 + 14) ∧
    cloudy_stream_buffer_capacity_call (heapAt4096 1) ⟨4096, 14, 50⟩
      = (50, heapAt4096 1, ⟨4096, 14, 50⟩) ∧
    cloudy_stream_buffer_call lp64 (heapAt4096 1) ⟨4096, 14, 50⟩
      = (cloudy_stream_buffer lp64 ⟨4096, 14, 50⟩, heapAt4096 1, ⟨4096, 14, 50⟩) :=
  accessors_read_only lp64 (heapAt4096 1) ⟨4096, 14, 50⟩

/-! ## The two counter back ends -/

/-- C18, the failing input: a decrement of a counter equal to 1. The `__sync` back end
releases the block; the `_WIN32` back end leaves it allocated with counter 0 and never
calls `free`. -/
theorem interlocked_decrement_never_frees :
    CLOUDY_STREAM_DECR_COUNT lp64 (heapAt4096 1) 4096 = some ((heapAt4096 1).erase 4096) ∧
    ((heapAt4096 1).erase 4096).blocks 4096 = none ∧
    ((heapAt4096 1).erase 4096).freed = [4096] ∧
    CLOUDY_STREAM_DECR_COUNT win64 (heapAt4096 1) 4096
      = some ((heapAt4096 1).write 4096
          { count := 0, size := 64, data := List.replicate 60 0 }) ∧
    ((heapAt4096 1).write 4096 { count := 0, size := 64, data := List.replicate 60 0 }).blocks
        4096 = some { count := 0, size := 64, data := List.replicate 60 0 } ∧
    ((heapAt4096 1).write 4096 { count := 0, size := 64, data := List.replicate 60 0 }).freed
      = [] := by
  refine ⟨?_, ?_, ?_, ?_, ?_, ?_⟩
  · rw [CLOUDY_STREAM_DECR_COUNT_sync lp64 rfl _ 4096 _ (deref_heapAt4096 1) (by decide)
      (by simp [lp64, Target.counterMod])]
    simp
  · simp [Heap.erase]
  · simp [Heap.erase, heapAt4096, Heap.write, Heap.empty]
  · simp [CLOUDY_STREAM_DECR_COUNT, win64, deref_heapAt4096, Target.counterMod]
  · simp [Heap.write]
  · simp [heapAt4096, Heap.write, Heap.empty]

/-- On the `_WIN32` back end no decrement ever releases a block: the block stays and the
log of releases is as before. -/
theorem interlocked_decrement_keeps_block (T : Target) (hT : T.backend = Backend.interlocked)
    (h : Heap) (b : Nat) (blk : Block) (hb : h.deref b = some blk) :
    ∃ h1, CLOUDY_STREAM_DECR_COUNT T h b = some h1 ∧ h1.freed = h.freed ∧
      h1.blocks b = some { blk with count := (blk.count + T.counterMod - 1) % T.counterMod } := by
  refine ⟨h.write b { blk with count := (blk.count + T.counterMod - 1) % T.counterMod },
    ?_, rfl, by simp [Heap.write]⟩
  unfold CLOUDY_STREAM_DECR_COUNT
  rw [hT]
  simp only [hb]

/-- The increment is the same on both back ends. -/
theorem increment_backend_independent (T U : Target) (hc : T.counterBits = U.counterBits)
    (h : Heap) (b : Nat) :
    CLOUDY_STREAM_INCR_COUNT T h b = CLOUDY_STREAM_INCR_COUNT U h b := by
  have hm : T.counterMod = U.counterMod := by simp [Target.counterMod, hc]
  unfold CLOUDY_STREAM_INCR_COUNT
  rw [hm]
  cases T.backend <;> cases U.backend <;> rfl

/-! ## The scenario -/

theorem scenario_init (T : Target) (hT : T.counterSize = 4) (hs : 64 < 2 ^ T.sizeBits) :
    cloudy_stream_init T ⟨4096, 0, []⟩ Heap.empty ⟨0, 0, 0⟩ 64
      = some (true, (scenarioWorld T).heap, (scenarioWorld T).stream) :=
  cloudy_stream_init_ok T ⟨4096, 0, []⟩ Heap.empty ⟨0, 0, 0⟩ 64 hs
    (by simp [CLOUDY_STREAM_COUNTER_SIZE, hT]) (by decide)

/-- The scenario on the `__sync` back end: every value is the one the specification
gives, and `destroy` releases the block. -/
theorem scenario_sync :
    cloudy_stream_init lp64 ⟨4096, 0, []⟩ Heap.empty ⟨0, 0, 0⟩ 64
      = some (true, (scenarioWorld lp64).heap, (scenarioWorld lp64).stream) ∧
    World.observe 4096 (scenarioWorld lp64) = (4, 60, some 1, 0) ∧
    (World.run lp64 (scenarioWorld lp64) (scenarioOps.take 1)).map (World.observe 4096)
      = Except.ok (14, 50, some 2, 0) ∧
    (World.run lp64 (scenarioWorld lp64) (scenarioOps.take 2)).map (World.observe 4096)
      = Except.ok (14, 50, some 3, 0) ∧
    (World.run lp64 (scenarioWorld lp64) (scenarioOps.take 4)).map (World.observe 4096)
      = Except.ok (14, 50, some 1, 0) ∧
    (World.run lp64 (scenarioWorld lp64) scenarioOps).map (World.observe 4096)
      = Except.ok (14, 50, none, 1) :=
  ⟨scenario_init lp64 rfl (by decide), rfl, rfl, rfl, rfl, rfl⟩

/-- C15, the failing input: the scenario on the `_WIN32` back end. Every value up to the
two releases is the one the specification gives; `destroy` then drives the counter to 0,
but the block is still allocated and `free` has not been called. -/
theorem scenario_interlocked_leaks :
    cloudy_stream_init win64 ⟨4096, 0, []⟩ Heap.empty ⟨0, 0, 0⟩ 64
      = some (true, (scenarioWorld win64).heap, (scenarioWorld win64).stream) ∧
    World.observe 4096 (scenarioWorld win64) = (4, 60, some 1, 0) ∧
    (World.run win64 (scenarioWorld win64) (scenarioOps.take 1)).map (World.observe 4096)
      = Except.ok (14, 50, some 2, 0) ∧
    (World.run win64 (scenarioWorld win64) (scenarioOps.take 2)).map (World.observe 4096)
      = Except.ok (14, 50, some 3, 0) ∧
    (World.run win64 (scenarioWorld win64) (scenarioOps.take 4)).map (World.observe 4096)
      = Except.ok (14, 50, some 1, 0) ∧
    (World.run win64 (scenarioWorld win64) scenarioOps).map (World.observe 4096)
      = Except.ok (14, 50, some 0, 0) :=
  ⟨scenario_init win64 rfl (by decide), rfl, rfl, rfl, rfl, rfl⟩

/-! ## size_t arithmetic under the invariants -/

/-- C19: for a stream whose buffer is a live block, with `used >= header` and
`used + free` representable in `size_t`, and every size: the rewind of
`cloudy_stream_reserve_buffer` (taken when the counter is 1) leaves `used` equal to the
header size and `free` equal to `free + (used - header)` computed in the integers, and
`cloudy_stream_allocate` with `size <= free` leaves `used` equal to `used + size` and
`free` equal to `free - size` computed in the integers; no reduction modulo `2 ^ w`
changes a value. -/
theorem size_arithmetic_exact (T : Target) (h : Heap) (s : cloudy_stream)
    (size init_size : Nat) (blk : Block) (hb : h.deref s.buffer = some blk)
    (hused : CLOUDY_STREAM_COUNTER_SIZE T ≤ s.used) (hcap : s.used + s.free < T.sizeMod) :
    (blk.count = 1 →
      ∃ r, cloudy_stream_reserve_buffer T refuseGrowth h s size init_size = some r ∧
        (r.2.2.used : Int) = (CLOUDY_STREAM_COUNTER_SIZE T : Int) ∧
        (r.2.2.free : Int)
          = (s.free : Int) + ((s.used : Int) - (CLOUDY_STREAM_COUNTER_SIZE T : Int))) ∧
    (size ≤ s.free →
      ∃ r, cloudy_stream_allocate T h s size = some r ∧
        (r.2.2.used : Int) = (s.used : Int) + (size : Int) ∧
        (r.2.2.free : Int) = (s.free : Int) - (size : Int)) := by
  constructor
  · intro hc
    have hrw := rewind_free_eq T s hused hcap
    refine ⟨_, cloudy_stream_reserve_buffer_eq T refuseGrowth h s size init_size blk hb, ?_⟩
    simp only [hc, if_true, hrw]
    have hfree : ((s.used + s.free - CLOUDY_STREAM_COUNTER_SIZE T : Nat) : Int)
        = (s.free : Int) + ((s.used : Int) - (CLOUDY_STREAM_COUNTER_SIZE T : Int)) := by
      omega
    split
    · exact ⟨rfl, hfree⟩
    · exact ⟨rfl, hfree⟩
  · intro hsize
    refine ⟨_, cloudy_stream_allocate_eq T h s size blk hb hsize, ?_, ?_⟩
    · show (((s.used + size) % T.sizeMod : Nat) : Int) = _
      rw [Nat.mod_eq_of_lt (by omega)]
      omega
    · show (((s.free + T.sizeMod - size) % T.sizeMod : Nat) : Int) = _
      rw [sub_mod_of_le _ _ _ hsize (by omega)]
      omega

/-- Witness of C19: `used = 14`, `free = 50` on a 64-byte block with counter 1. -/
theorem size_arithmetic_exact_witness :
    ((1 : Nat) = 1 →
      ∃ r, cloudy_stream_reserve_buffer lp64 refuseGrowth (heapAt4096 1) ⟨4096, 14, 50⟩ 20 4096
          = some r ∧
        (r.2.2.used : Int) = (CLOUDY_STREAM_COUNTER_SIZE lp64 : Int) ∧
        (r.2.2.free : Int)
          = ((50 : Nat) : Int) + (((14 : Nat) : Int) - (CLOUDY_STREAM_COUNTER_SIZE lp64 : Int))) ∧
    (20 ≤ 50 →
      ∃ r, cloudy_stream_allocate lp64 (heapAt4096 1) ⟨4096, 14, 50⟩ 20 = some r ∧
        (r.2.2.used : Int) = ((14 : Nat) : Int) + ((20 : Nat) : Int) ∧
        (r.2.2.free : Int) = ((50 : Nat) : Int) - ((20 : Nat) : Int)) :=
  size_arithmetic_exact lp64 (heapAt4096 1) ⟨4096, 14, 50⟩ 20 4096
    { count := 1, size := 64, data := List.replicate 60 0 } (deref_heapAt4096 1) (by decide)
    (by simp [lp64, Target.sizeMod])

/-! ## Invariants of the producer calls -/

/-- A `reserve` that returns true with the always-failing growth function returns the
same result with every growth function: it has not called it. -/
theorem reserve_true_without_growth (T : Target) (h : Heap) (s : cloudy_stream)
    (size init_size : Nat) (h1 : Heap) (s1 : cloudy_stream)
    (hr : cloudy_stream_reserve_buffer T refuseGrowth h s size init_size = some (true, h1, s1))
    (g : GrowthPolicy) :
    cloudy_stream_reserve_buffer T g h s size init_size = some (true, h1, s1) := by
  cases hd : h.deref s.buffer with
  | none => simp [cloudy_stream_reserve_buffer, CLOUDY_STREAM_GET_COUNT, hd] at hr
  | some blk =>
    rw [cloudy_stream_reserve_buffer_eq T _ h s size init_size blk hd] at hr ⊢
    by_cases hc : blk.count = 1
    · simp only [hc, if_true] at hr ⊢
      split at hr
      · simp [refuseGrowth] at hr
      · rename_i hge
        simp only [hge, if_false]
        exact hr
    · simp only [hc, if_false] at hr ⊢
      split at hr
      · simp [refuseGrowth] at hr
      · rename_i hge
        simp only [hge, if_false]
        exact hr

theorem producerInv_deref {T : Target} {c p : Nat} {w : Heap × cloudy_stream}
    (hinv : ProducerInv T c p w) :
    ∃ blk, w.1.deref w.2.buffer = some blk ∧ w.1.blocks p = some blk ∧ blk.size = c := by
  obtain ⟨blk, hblk, hsz⟩ := hinv.live
  exact ⟨blk, by rw [hinv.buffer]; exact deref_of_blocks hinv.nonnull hblk, hblk, hsz⟩

theorem producerInv_allocate (T : Target) (c p : Nat) (h : Heap) (s : cloudy_stream)
    (size : Nat) (hinv : ProducerInv T c p (h, s)) :
    ∃ r h1 s1, cloudy_stream_allocate T h s size = some (r, h1, s1) ∧
      ProducerInv T c p (h1, s1) ∧
      (s.free < size → r = 0 ∧ s1 = s) ∧
      (size ≤ s.free → r = p ∧ s1.used = s.used + size ∧ s1.free = s.free - size) := by
  obtain ⟨blk, hderef, hblk, hsz⟩ := producerInv_deref hinv
  have hcap := hinv.capacity
  have hfits := hinv.fits
  have hhdr := hinv.header
  simp only at hderef hblk hcap hhdr
  by_cases hlt : s.free < size
  · refine ⟨0, h, s, by simp [cloudy_stream_allocate, hlt], hinv, fun _ => ⟨rfl, rfl⟩, ?_⟩
    intro hle
    omega
  · have hle : size ≤ s.free := Nat.not_lt.mp hlt
    have hu : (s.used + size) % T.sizeMod = s.used + size := Nat.mod_eq_of_lt (by omega)
    have hf : (s.free + T.sizeMod - size) % T.sizeMod = s.free - size :=
      sub_mod_of_le _ _ _ hle (by omega)
    refine ⟨_, _, _, cloudy_stream_allocate_eq T h s size blk hderef hle, ?_,
      fun hlt2 => absurd hlt2 hlt, fun _ => ⟨hinv.buffer, hu, hf⟩⟩
    constructor
    · exact hinv.buffer
    · exact hinv.nonnull
    · refine ⟨{ blk with count := (blk.count + 1) % T.counterMod }, ?_, hsz⟩
      have hbuf : s.buffer = p := hinv.buffer
      simp [Heap.write, hbuf]
    · show CLOUDY_STREAM_COUNTER_SIZE T ≤ (s.used + size) % T.sizeMod
      rw [hu]; omega
    · show (s.used + size) % T.sizeMod + (s.free + T.sizeMod - size) % T.sizeMod = c
      rw [hu, hf]; omega
    · exact hfits

theorem producerInv_reserve (T : Target) (c p : Nat) (h : Heap) (s : cloudy_stream)
    (size init_size : Nat) (hinv : ProducerInv T c p (h, s)) :
    (∃ s1, cloudy_stream_reserve_buffer T refuseGrowth h s size init_size = some (true, h, s1) ∧
      ProducerInv T c p (h, s1)) ∨
    (∃ s1, cloudy_stream_reserve_buffer T refuseGrowth h s size init_size
      = some (false, h, s1)) := by
  obtain ⟨blk, hderef, hblk, hsz⟩ := producerInv_deref hinv
  have hcap := hinv.capacity
  have hfits := hinv.fits
  have hhdr := hinv.header
  simp only at hderef hblk hcap hhdr
  rw [cloudy_stream_reserve_buffer_eq T refuseGrowth h s size init_size blk hderef]
  by_cases hc : blk.count = 1
  · simp only [hc, if_true, rewind_free_eq T s hhdr (by omega)]
    by_cases hlt : s.used + s.free - CLOUDY_STREAM_COUNTER_SIZE T < size
    · right
      simp only [hlt, if_true, refuseGrowth]
      exact ⟨_, rfl⟩
    · left
      simp only [hlt, if_false]
      refine ⟨_, rfl, ?_⟩
      constructor
      · exact hinv.buffer
      · exact hinv.nonnull
      · exact hinv.live
      · exact le_refl _
      · show CLOUDY_STREAM_COUNTER_SIZE T + (s.used + s.free - CLOUDY_STREAM_COUNTER_SIZE T) = c
        omega
      · exact hfits
  · simp only [hc, if_false]
    by_cases hlt : s.free < size
    · right
      simp only [hlt, if_true, refuseGrowth]
      exact ⟨_, rfl⟩
    · left
      simp only [hlt, if_false]
      exact ⟨s, rfl, hinv⟩

theorem producer_step_inv (T : Target) (c p : Nat) (w : Heap × cloudy_stream) (op : ProducerOp)
    (hinv : ProducerInv T c p w) :
    (∃ w1, Producer.step T w op = Except.ok w1 ∧ ProducerInv T c p w1) ∨
    Producer.step T w op = Except.error Halt.growth := by
  obtain ⟨h, s⟩ := w
  cases op with
  | reserve size init_size =>
    rcases producerInv_reserve T c p h s size init_size hinv with ⟨s1, hr, hinv1⟩ | ⟨s1, hr⟩
    · left
      exact ⟨(h, s1), by simp only [Producer.step, hr], hinv1⟩
    · right
      simp only [Producer.step, hr]
  | allocate size =>
    obtain ⟨r, h1, s1, ha, hinv1, _, _⟩ := producerInv_allocate T c p h s size hinv
    left
    exact ⟨(h1, s1), by simp only [Producer.step, ha], hinv1⟩

theorem producer_run_inv (T : Target) (c p : Nat) (ops : List ProducerOp) :
    ∀ w : Heap × cloudy_stream, ProducerInv T c p w →
      (∃ wf, Producer.run T w ops = Except.ok wf ∧ ProducerInv T c p wf) ∨
      Producer.run T w ops = Except.error Halt.growth := by
  induction ops with
  | nil =>
    intro w hinv
    exact Or.inl ⟨w, rfl, hinv⟩
  | cons op ops ih =>
    intro w hinv
    rcases producer_step_inv T c p w op hinv with ⟨w1, hs, hinv1⟩ | hs
    · rcases ih w1 hinv1 with ⟨wf, hr, hinvf⟩ | hr
      · exact Or.inl ⟨wf, by simp only [Producer.run, hs]; exact hr, hinvf⟩
      · exact Or.inr (by simp only [Producer.run, hs]; exact hr)
    · exact Or.inr (by simp only [Producer.run, hs])

theorem producerInv_init (T : Target) (a : Allocator) (h0 : Heap) (c : Nat)
    (hc : c < 2 ^ T.sizeBits) (hle : CLOUDY_STREAM_COUNTER_SIZE T ≤ c) (ha : a.addr ≠ 0) :
    ProducerInv T c a.addr
      (initHeap T a h0 c,
        { buffer := a.addr, used := CLOUDY_STREAM_COUNTER_SIZE T,
          free := c - CLOUDY_STREAM_COUNTER_SIZE T }) := by
  constructor
  · rfl
  · exact ha
  · exact ⟨{ count := 1 % T.counterMod, size := c, data := a.data },
      by simp [initHeap, Heap.write], rfl⟩
  · exact le_refl _
  · show CLOUDY_STREAM_COUNTER_SIZE T + (c - CLOUDY_STREAM_COUNTER_SIZE T) = c
    omega
  · exact hc

/-- C12: after a successful `cloudy_stream_init(c)`, take any sequence of `reserve` and
`allocate` calls and any number `k` of its first calls. Either one of these `reserve`
calls invoked the growth function, or all `k` calls are defined and afterwards
`used + free` equals `c`, the size of the block the stream points at. Failing `allocate`
calls are included. -/
theorem capacity_invariant (T : Target) (a : Allocator) (h0 : Heap) (s0 : cloudy_stream)
    (c : Nat) (hc : c < 2 ^ T.sizeBits) (hle : CLOUDY_STREAM_COUNTER_SIZE T ≤ c)
    (ha : a.addr ≠ 0) (ops : List ProducerOp) (k : Nat) :
    ∃ h1 s1, cloudy_stream_init T a h0 s0 c = some (true, h1, s1) ∧
      ((∃ hk sk blk, Producer.run T (h1, s1) (ops.take k) = Except.ok (hk, sk) ∧
          sk.used + sk.free = c ∧ hk.deref sk.buffer = some blk ∧ blk.size = c) ∨
        Producer.run T (h1, s1) (ops.take k) = Except.error Halt.growth) := by
  refine ⟨_, _, cloudy_stream_init_ok T a h0 s0 c hc hle ha, ?_⟩
  rcases producer_run_inv T c a.addr (ops.take k) _ (producerInv_init T a h0 c hc hle ha)
    with ⟨⟨hk, sk⟩, hr, hinv⟩ | hr
  · obtain ⟨blk, hderef, _, hsz⟩ := producerInv_deref hinv
    exact Or.inl ⟨hk, sk, blk, hr, hinv.capacity, hderef, hsz⟩
  · exact Or.inr hr

/-- C13: after a successful `cloudy_stream_init(c)`, take any sequence of `reserve` and
`allocate` calls and any number `k` of its first calls. Either one of these `reserve`
calls invoked the growth function, or all `k` calls are defined and afterwards `used` is
at least the counter header size. -/
theorem header_invariant (T : Target) (a : Allocator) (h0 : Heap) (s0 : cloudy_stream)
    (c : Nat) (hc : c < 2 ^ T.sizeBits) (hle : CLOUDY_STREAM_COUNTER_SIZE T ≤ c)
    (ha : a.addr ≠ 0) (ops : List ProducerOp) (k : Nat) :
    ∃ h1 s1, cloudy_stream_init T a h0 s0 c = some (true, h1, s1) ∧
      ((∃ hk sk, Producer.run T (h1, s1) (ops.take k) = Except.ok (hk, sk) ∧
          CLOUDY_STREAM_COUNTER_SIZE T ≤ sk.used) ∨
        Producer.run T (h1, s1) (ops.take k) = Except.error Halt.growth) := by
  refine ⟨_, _, cloudy_stream_init_ok T a h0 s0 c hc hle ha, ?_⟩
  rcases producer_run_inv T c a.addr (ops.take k) _ (producerInv_init T a h0 c hc hle ha)
    with ⟨⟨hk, sk⟩, hr, hinv⟩ | hr
  · exact Or.inl ⟨hk, sk, hr, hinv.header⟩
  · exact Or.inr hr

/-- Witness of C12: `init(64)`, then `allocate(10)`, `reserve(20)`, a failing
`allocate(100)` and `allocate(5)`. -/
theorem capacity_invariant_witness :
    ∃ h1 s1, cloudy_stream_init lp64 ⟨4096, 0, []⟩ Heap.empty ⟨0, 0, 0⟩ 64
        = some (true, h1, s1) ∧
      ((∃ hk sk blk, Producer.run lp64 (h1, s1)
            ([ProducerOp.allocate 10, ProducerOp.reserve 20 4096, ProducerOp.allocate 100,
              ProducerOp.allocate 5].take 4) = Except.ok (hk, sk) ∧
          sk.used + sk.free = 64 ∧ hk.deref sk.buffer = some blk ∧ blk.size = 64) ∨
        Producer.run lp64 (h1, s1)
            ([ProducerOp.allocate 10, ProducerOp.reserve 20 4096, ProducerOp.allocate 100,
              ProducerOp.allocate 5].take 4) = Except.error Halt.growth) :=
  capacity_invariant lp64 ⟨4096, 0, []⟩ Heap.empty ⟨0, 0, 0⟩ 64 (by decide) (by decide)
    (by decide)
    [ProducerOp.allocate 10, ProducerOp.reserve 20 4096, ProducerOp.allocate 100,
      ProducerOp.allocate 5] 4

/-- Witness of C13: `init(64)`, then `allocate(10)`, `reserve(20)`, a failing
`allocate(100)` and `allocate(5)`, observed after the third call. -/
theorem header_invariant_witness :
    ∃ h1 s1, cloudy_stream_init lp64 ⟨4096, 0, []⟩ Heap.empty ⟨0, 0, 0⟩ 64
        = some (true, h1, s1) ∧
      ((∃ hk sk, Producer.run lp64 (h1, s1)
            ([ProducerOp.allocate 10, ProducerOp.reserve 20 4096, ProducerOp.allocate 100,
              ProducerOp.allocate 5].take 3) = Except.ok (hk, sk) ∧
          CLOUDY_STREAM_COUNTER_SIZE lp64 ≤ sk.used) ∨
        Producer.run lp64 (h1, s1)
            ([ProducerOp.allocate 10, ProducerOp.reserve 20 4096, ProducerOp.allocate 100,
              ProducerOp.allocate 5].take 3) = Except.error Halt.growth) :=
  header_invariant lp64 ⟨4096, 0, []⟩ Heap.empty ⟨0, 0, 0⟩ 64 (by decide) (by decide)
    (by decide)
    [ProducerOp.allocate 10, ProducerOp.reserve 20 4096, ProducerOp.allocate 100,
      ProducerOp.allocate 5] 3

/-- The run of the witnesses does not stop: no call of it invokes the growth function. -/
theorem producer_run_sample :
    (Producer.run lp64
        ((scenarioWorld lp64).heap, (scenarioWorld lp64).stream)
        [ProducerOp.allocate 10, ProducerOp.reserve 20 4096, ProducerOp.allocate 100,
          ProducerOp.allocate 5]).map (fun w => w.2)
      = Except.ok { buffer := 4096, used := 19, free := 45 } := rfl

/-! ## Committed regions -/

theorem regionsFrom_length (sizes : List Nat) :
    ∀ start, (regionsFrom start sizes).length = sizes.length := by
  induction sizes with
  | nil => intro start; rfl
  | cons size rest ih =>
    intro start
    simp [regionsFrom, ih]

theorem regionsFrom_getElem (sizes : List Nat) :
    ∀ (start i : Nat) (hi : i < sizes.length),
      (regionsFrom start sizes)[i]? = some (start + (sizes.take i).sum, sizes[i]) := by
  induction sizes with
  | nil =>
    intro start i hi
    simp at hi
  | cons size rest ih =>
    intro start i hi
    cases i with
    | zero => simp [regionsFrom]
    | succ i =>
      have hi2 : i < rest.length := by simpa using hi
      simp only [regionsFrom, List.getElem?_cons_succ, List.take_succ_cons, List.sum_cons,
        List.getElem_cons_succ]
      rw [ih (start + size) i hi2, Nat.add_assoc]

theorem regionsFrom_bounds (sizes : List Nat) :
    ∀ start, ∀ r ∈ regionsFrom start sizes, start ≤ r.1 ∧ r.1 + r.2 ≤ start + sizes.sum := by
  induction sizes with
  | nil =>
    intro start r hr
    simp [regionsFrom] at hr
  | cons size rest ih =>
    intro start r hr
    simp only [regionsFrom, List.mem_cons] at hr
    rcases hr with hr | hr
    · subst hr
      simp only [List.sum_cons]
      omega
    · have := ih (start + size) r hr
      simp only [List.sum_cons]
      omega

theorem regionsFrom_pairwise (sizes : List Nat) :
    ∀ start, (regionsFrom start sizes).Pairwise (fun a b => a.1 + a.2 ≤ b.1) := by
  induction sizes with
  | nil =>
    intro start
    exact List.Pairwise.nil
  | cons size rest ih =>
    intro start
    simp only [regionsFrom]
    refine List.Pairwise.cons ?_ (ih (start + size))
    intro r hr
    exact (regionsFrom_bounds rest (start + size) r hr).1

theorem commitAll_eq (T : Target) (c p : Nat) (hspace : p + c < T.pointerMod)
    (sizes : List Nat) :
    ∀ (h : Heap) (s : cloudy_stream), ProducerInv T c p (h, s) →
      (sizes.sum ≤ s.free →
        ∃ hf sf, commitAll T h s sizes
          = Except.ok (regionsFrom (cloudy_stream_buffer T s) sizes, hf, sf)) ∧
      (s.free < sizes.sum → commitAll T h s sizes = Except.error Fault.misuse) := by
  induction sizes with
  | nil =>
    intro h s _
    exact ⟨fun _ => ⟨h, s, rfl⟩, fun hlt => by simp at hlt⟩
  | cons size rest ih =>
    intro h s hinv
    obtain ⟨r, h1, s1, ha, hinv1, hfail, hok⟩ := producerInv_allocate T c p h s size hinv
    simp only [List.sum_cons]
    by_cases hlt : s.free < size
    · obtain ⟨hr, _⟩ := hfail hlt
      refine ⟨fun hle => by omega, fun _ => ?_⟩
      simp only [commitAll, ha, hr, if_true]
    · have hle : size ≤ s.free := Nat.not_lt.mp hlt
      obtain ⟨hr, hu, hf⟩ := hok hle
      have hr0 : r ≠ 0 := by rw [hr]; exact hinv.nonnull
      have hbuf : s.buffer = p := hinv.buffer
      have hbuf1 : s1.buffer = p := hinv1.buffer
      have hcap : s.used + s.free = c := hinv.capacity
      have hstart : cloudy_stream_buffer T s1 = cloudy_stream_buffer T s + size := by
        rw [cloudy_stream_buffer_exact T s1 (by rw [hbuf1, hu]; omega),
          cloudy_stream_buffer_exact T s (by rw [hbuf]; omega), hbuf1, hbuf, hu, Nat.add_assoc]
      obtain ⟨ihok, ihfail⟩ := ih h1 s1 hinv1
      constructor
      · intro hsum
        obtain ⟨hf2, sf, hrest⟩ := ihok (by rw [hf]; omega)
        refine ⟨hf2, sf, ?_⟩
        simp only [commitAll, ha, hr0, if_false, hrest, regionsFrom, hstart]
      · intro hsum
        have hrest := ihfail (by rw [hf]; omega)
        simp only [commitAll, ha, hr0, if_false, hrest]

theorem streamInv_producerInv {T : Target} {h : Heap} {s : cloudy_stream}
    (hinv : StreamInv T h s) : ProducerInv T (s.used + s.free) s.buffer (h, s) := by
  obtain ⟨blk, hb, _, _, hused, hcap, hlt⟩ := hinv
  have hp : s.buffer ≠ 0 := deref_ne_null hb
  constructor
  · rfl
  · exact hp
  · refine ⟨blk, ?_, hcap.symm⟩
    simpa [Heap.deref, hp] using hb
  · exact hused
  · rfl
  · rw [hcap]; exact hlt

/-- C20: for a stream that satisfies the stream invariants, on a heap whose blocks lie
inside the address space, and a list of sizes committed one after the other with
`cloudy_stream_allocate`, with no other call in between: when the sizes add up to at most
`free` every call succeeds; and whenever every call succeeds, the write pointer
`cloudy_stream_buffer` recorded before the `i`-th call is the initial write pointer plus
the sizes committed before it, each region ends where the next ones begin (so the regions
are pairwise disjoint), and every region lies between the end of the counter header and
the end of the backing block. -/
theorem committed_regions (T : Target) (h : Heap) (s : cloudy_stream) (sizes : List Nat)
    (hinv : StreamInv T h s) (hspace : h.inAddressSpace T) :
    (sizes.sum ≤ s.free → ∃ r, commitAll T h s sizes = Except.ok r) ∧
    (∀ regions hf sf, commitAll T h s sizes = Except.ok (regions, hf, sf) →
      regions.length = sizes.length ∧
      (∀ (i : Nat) (hi : i < sizes.length),
        regions[i]? = some (cloudy_stream_buffer T s + (sizes.take i).sum, sizes[i])) ∧
      regions.Pairwise (fun a b => a.1 + a.2 ≤ b.1 ∨ b.1 + b.2 ≤ a.1) ∧
      (∀ r ∈ regions,
        s.buffer + CLOUDY_STREAM_COUNTER_SIZE T ≤ r.1 ∧
        r.1 + r.2 ≤ s.buffer + (s.used + s.free))) := by
  have hpinv := streamInv_producerInv hinv
  have hfits := streamInv_pointer_fits hinv hspace
  obtain ⟨hok, hfail⟩ := commitAll_eq T _ _ hfits sizes h s hpinv
  constructor
  · intro hsum
    obtain ⟨hf, sf, hr⟩ := hok hsum
    exact ⟨_, hr⟩
  · intro regions hf sf hrun
    have hsum : sizes.sum ≤ s.free := by
      by_contra hnot
      rw [hfail (Nat.not_le.mp hnot)] at hrun
      exact absurd hrun (by simp)
    obtain ⟨hf2, sf2, hr⟩ := hok hsum
    rw [hr] at hrun
    have hreg : regions = regionsFrom (cloudy_stream_buffer T s) sizes := by
      injection hrun with hrun
      exact (congrArg Prod.fst hrun).symm
    subst hreg
    refine ⟨regionsFrom_length sizes _, regionsFrom_getElem sizes _, ?_, ?_⟩
    · exact (regionsFrom_pairwise sizes _).imp (fun hab => Or.inl hab)
    · intro r hr2
      have hb := regionsFrom_bounds sizes _ r hr2
      have hused := hpinv.header
      rw [cloudy_stream_buffer_exact T s (by omega)] at hb
      simp only at hused
      omega

/-- Witness of C20: three regions of 10, 0 and 20 bytes committed on a stream with
`used = 14`, `free = 50` in a 64-byte block. -/
theorem committed_regions_witness :
    StreamInv lp64 (heapAt4096 1) ⟨4096, 14, 50⟩ ∧
    (heapAt4096 1).inAddressSpace lp64 ∧
    (([10, 0, 20] : List Nat).sum ≤ 50 →
      ∃ r, commitAll lp64 (heapAt4096 1) ⟨4096, 14, 50⟩ [10, 0, 20] = Except.ok r) ∧
    (∀ regions hf sf,
      commitAll lp64 (heapAt4096 1) ⟨4096, 14, 50⟩ [10, 0, 20] = Except.ok (regions, hf, sf) →
      regions.length = ([10, 0, 20] : List Nat).length ∧
      (∀ (i : Nat) (hi : i < ([10, 0, 20] : List Nat).length),
        regions[i]? = some (cloudy_stream_buffer lp64 ⟨4096, 14, 50⟩
          + (([10, 0, 20] : List Nat).take i).sum, ([10, 0, 20] : List Nat)[i])) ∧
      regions.Pairwise (fun a b => a.1 + a.2 ≤ b.1 ∨ b.1 + b.2 ≤ a.1) ∧
      (∀ r ∈ regions,
        4096 + CLOUDY_STREAM_COUNTER_SIZE lp64 ≤ r.1 ∧ r.1 + r.2 ≤ 4096 + (14 + 50))) :=
  ⟨streamInv_heapAt4096 1 14 50 (by decide) (by simp [lp64, Target.counterMod]) (by decide) rfl,
    heapAt4096_inAddressSpace 1,
    committed_regions lp64 (heapAt4096 1) ⟨4096, 14, 50⟩ [10, 0, 20]
      (streamInv_heapAt4096 1 14 50 (by decide) (by simp [lp64, Target.counterMod])
        (by decide) rfl)
      (heapAt4096_inAddressSpace 1)⟩

/-- The regions of the witness, evaluated. -/
theorem commitAll_sample :
    (commitAll lp64 (heapAt4096 1) ⟨4096, 14, 50⟩ [10, 0, 20]).map (fun r => (r.1, r.2.2))
      = Except.ok ([(4110, 10), (4120, 0), (4120, 20)], ⟨4096, 44, 20⟩) := rfl

end Cloudy
